import Mathlib

/-!
# Event subscription engine (`sdk/subscriber`)

A shallow embedding of `sdk/subscriber/subscriber.go` and of `Reply.IsOK`
from `app/remote/message/reply.go`.

Every goroutine of the subscriber is embedded as a function from the results
its collaborators hand back (subscribe results, page replies, store results,
received messages, probe replies) to the list of effects it performs, in
program order.  A loop that blocks on a collaborator is run on a finite
prefix of that collaborator's results (or with a bound on its iterations), and
reports whether it has left the loop.
-/

namespace Subscriber

/-! ## Messages -/

/-- Status string of a successful reply (`reply.go`, constant `OK`). -/
def OK : String := "OK"

/-- Status string of a failed reply (`reply.go`, constant `FAIL`). -/
def FAIL : String := "fail"

/-- A value of a decoded JSON object, as far as the subscriber's data needs it. -/
inductive JsonValue where
  | num (n : Nat)
  | str (s : String)
  deriving DecidableEq, Repr

/-- One decoded JSON object (`map[string]interface{}`), kept as its fields. -/
abbrev RawJson := List (String × JsonValue)

/-- Modelled from the spec: `categorizer.Transaction` is declared outside the
sources at hand.  The worker reads one field of it, `BlockTimestamp`, which is
kept here as the value of `uint64(tx.BlockTimestamp)`. -/
structure Transaction where
  BlockTimestamp : Nat
  fields : RawJson
  deriving DecidableEq, Repr

/-- Modelled from the spec: `categorizer.Log` is declared outside the sources at
hand; no field of it is read by the subscriber. -/
structure Log where
  fields : RawJson
  deriving DecidableEq, Repr

/-- The parameters carried by a reply: nothing, the three entries built by the
snapshot worker (`subscriber.go` 149-153), or the fields of a wire message. -/
inductive Params where
  | empty
  | snapshot (transactions : List Transaction) (logs : List Log) (block_timestamp : Nat)
  | raw (fields : RawJson)
  deriving DecidableEq, Repr

/-- The reply message (`reply.go`, `type Reply`). -/
structure Reply where
  Status : String
  Message : String
  Parameters : Params
  deriving DecidableEq, Repr

/-- The method `func (r *Reply) IsOK() bool { return r.Status == OK }`. -/
def Reply.IsOK (r : Reply) : Bool := r.Status == OK

/-- Modelled from the spec: `message.Broadcast` and `message.NewBroadcast` are
declared outside the sources at hand.  A broadcast is a reply tagged with the
topic it belongs to. -/
structure Broadcast where
  Topic : String
  Reply : Reply
  deriving DecidableEq, Repr

/-- Modelled from the spec: `message.NewBroadcast(topic, reply)`. -/
def NewBroadcast (topic : String) (reply : Reply) : Broadcast := ⟨topic, reply⟩

/-- Modelled from the spec: `Broadcast.IsOK` is declared outside the sources at
hand; the status of a broadcast event is the status of the reply it carries
(`Reply.IsOK`). -/
def Broadcast.IsOK (b : Broadcast) : Bool := b.Reply.IsOK

/-- An OK reply. -/
def okReply : Reply := { Status := "OK", Message := "", Parameters := .empty }

/-- A reply that is not OK. -/
def downReply : Reply := { Status := "fail", Message := "down", Parameters := .empty }

/-! ## `Subscriber.Start` -/

/-- The collaborators `Start` talks to.  `SetSubscribe n key` is the result of
the `n`-th subscribe call, made for `key` (`none` is a nil error). -/
structure StartEnv where
  NewSub : Option String
  SetSubscribe : Nat → String → Option String
  RemoteBroadcastPort : Except String Nat

/-- The effects of `Start`, in program order. -/
inductive StartEffect where
  | newSub
  | setSubscribe (key : String) (err : Option String)
  | remoteBroadcastPort
  | goRunSink (port : Nat) (smartcontractAmount : Int)
  | goSnapshot (i : Nat) (port : Nat)
  deriving DecidableEq, Repr

/-- The method `getSinkPort`: the broadcast port plus one, on `uint`. -/
def getSinkPort (env : StartEnv) : Except String Nat :=
  match env.RemoteBroadcastPort with
  | .error err => .error err
  | .ok port => .ok ((port + 1) % 2 ^ 64)

/-- The loop `for _, key := range s.smartcontractKeys` of `Start`
(`subscriber.go` 65-70); `n` counts the subscribe calls already made.  The
result is the effects and the error of the first failing call. -/
def subscribeAll (env : StartEnv) : Nat → List String → List StartEffect × Option String
  | _, [] => ([], none)
  | n, key :: keys =>
    match env.SetSubscribe n key with
    | some err => ([.setSubscribe key (some err)], some err)
    | none =>
      let rest := subscribeAll env (n + 1) keys
      (.setSubscribe key none :: rest.1, rest.2)

/-- The method `Start` (`subscriber.go` 52-85): its effects and the error it
returns (`none` for `nil`). -/
def Start (env : StartEnv) (smartcontractKeys : List String) : List StartEffect × Option String :=
  match env.NewSub with
  | some err =>
    ([.newSub], some ("failed to establish a connection with SDS Gateway: " ++ err))
  | none =>
    match subscribeAll env 0 smartcontractKeys with
    | (subs, some err) =>
      (.newSub :: subs, some ("failed to subscribe to the smartcontract: " ++ err))
    | (subs, none) =>
      match getSinkPort env with
      | .error _ =>
        (.newSub :: subs ++ [.remoteBroadcastPort], some "failed to create a port for Snapshots")
      | .ok port =>
        (.newSub :: subs ++ [.remoteBroadcastPort]
          ++ [.goRunSink port (smartcontractKeys.length : Int)]
          ++ (List.range smartcontractKeys.length).map (fun i => .goSnapshot i port), none)

/-- The key of a subscribe call that returned without error. -/
def StartEffect.subscribed : StartEffect → Option String
  | .setSubscribe key none => some key
  | _ => none

/-- Whether the effect launches a goroutine (barrier listener or snapshot worker). -/
def StartEffect.isLaunch : StartEffect → Bool
  | .goRunSink _ _ => true
  | .goSnapshot _ _ => true
  | _ => false

/-! ## `Subscriber.runSink` -/

/-- The effects of the barrier listener, in program order. -/
inductive SinkEffect where
  | pullSocket (port : Nat)
  | recvMessage (err : Option String)
  | println (err : String)
  | goLoop
  | close
  | panic (err : String)
  deriving DecidableEq, Repr

/-- Go's `int` decrement: subtraction on 64-bit two's complement. -/
def decInt (x : Int) : Int := (x - 1 + 2 ^ 63) % 2 ^ 64 - 2 ^ 63

/-- The `for` loop of `runSink` (`subscriber.go` 171-183) on the results
`recvs` of the successive `RecvMessage` calls.  The flag tells whether the loop
was left through `break`; it is `false` when the listener is still blocked in
`RecvMessage` after the last result. -/
def runSinkLoop : Int → List (Option String) → List SinkEffect × Bool
  | _, [] => ([], false)
  | smartcontractAmount, some err :: recvs =>
    let rest := runSinkLoop smartcontractAmount recvs
    (.recvMessage (some err) :: .println err :: rest.1, rest.2)
  | smartcontractAmount, none :: recvs =>
    if decInt smartcontractAmount == 0 then
      ([.recvMessage none], true)
    else
      let rest := runSinkLoop (decInt smartcontractAmount) recvs
      (.recvMessage none :: rest.1, rest.2)

/-- The method `runSink` (`subscriber.go` 167-186).  `sockErr` is the outcome of
`TcpPullSocketOrPanic` (a message when it panics). -/
def runSink (sockErr : Option String) (port : Nat) (smartcontractAmount : Int)
    (recvs : List (Option String)) : List SinkEffect :=
  match sockErr with
  | some err => [.panic err]
  | none =>
    match runSinkLoop smartcontractAmount recvs with
    | (effects, true) => .pullSocket port :: effects ++ [.goLoop, .close]
    | (effects, false) => .pullSocket port :: effects

/-- The number of times the Live Loop was launched. -/
def releases (effects : List SinkEffect) : Nat := effects.count .goLoop

/-- The number of completion notices received without error. -/
def completions (effects : List SinkEffect) : Nat := effects.count (.recvMessage none)

/-- The number of receive results that carry no error. -/
def successes (recvs : List (Option String)) : Nat := recvs.count none

/-! ## `Subscriber.snapshot` -/

/-- The request sent by the snapshot worker: the command and the five entries
of its parameter map (`subscriber.go` 104-113). -/
structure Request where
  Command : String
  smartcontract_key : String
  block_timestamp_from : Nat
  block_timestamp_to : Nat
  page : Nat
  limit : Nat
  deriving DecidableEq, Repr

/-- The three entries read from a page reply (`subscriber.go` 120-122), the
batch timestamp already converted to `uint64`. -/
structure SnapshotReply where
  transactions : List RawJson
  logs : List RawJson
  block_timestamp : Nat
  deriving DecidableEq, Repr

/-- The collaborators of a snapshot worker.  `RequestRemoteService n request` is
the outcome of the `n`-th request (counted from 0), `SetBlockTimestamp n key ts`
that of the `n`-th store write; an error of the remote service stands for the
returned `err` as well as for a reply whose entries fail the type assertions,
both of which panic.  The two parsers and `TcpPushSocketOrPanic` (`none` when
the socket opens, a message when it panics) are declared outside the sources at
hand and are taken as given. -/
structure SnapshotEnv where
  GetBlockTimestamp : String → Nat
  SetBlockTimestamp : Nat → String → Nat → Option String
  RequestRemoteService : Nat → Request → Except String SnapshotReply
  ParseTransactionFromJson : RawJson → Transaction
  ParseLog : RawJson → Log
  TcpPushSocketOrPanic : Nat → Option String

/-- The effects of a snapshot worker, in program order. -/
inductive SnapshotEffect where
  | getBlockTimestamp (key : String)
  | request (request : Request)
  | setBlockTimestamp (key : String) (blockTimestamp : Nat) (err : Option String)
  | broadcast (b : Broadcast)
  | pushSocket (port : Nat)
  | sendMessage (msg : String)
  | close
  | panic (err : String)
  deriving DecidableEq, Repr

/-- How a run of the page loop ended: still inside the loop when the bound on
the iterations was reached, left through `break`, or stopped by a panic. -/
inductive LoopExit where
  | running
  | broke
  | panicked
  deriving DecidableEq, Repr

/-- The loop `for i, rawTx := range rawTransactions` (`subscriber.go` 132-139):
the parsed transactions and the final `latestBlockNumber`, from its current
value. -/
def parseTransactions (parse : RawJson → Transaction) :
    List RawJson → Nat → List Transaction × Nat
  | [], latestBlockNumber => ([], latestBlockNumber)
  | rawTx :: rest, latestBlockNumber =>
    let tx := parse rawTx
    let latest := if tx.BlockTimestamp > latestBlockNumber then tx.BlockTimestamp
      else latestBlockNumber
    let r := parseTransactions parse rest latest
    (tx :: r.1, r.2)

/-- The page loop of `snapshot` (`subscriber.go` 103-160), bounded to `fuel`
iterations.  `calls` counts the iterations already made; `page` and
`blockTimestampTo` are the loop variables. -/
def snapshotLoop (env : SnapshotEnv) (key : String) (limit blockTimestampFrom : Nat) :
    Nat → Nat → Nat → Nat → List SnapshotEffect × LoopExit
  | 0, _, _, _ => ([], .running)
  | fuel + 1, calls, page, blockTimestampTo =>
    let request : Request :=
      { Command := "snapshot_get", smartcontract_key := key,
        block_timestamp_from := blockTimestampFrom,
        block_timestamp_to := blockTimestampTo, page := page, limit := limit }
    match env.RequestRemoteService calls request with
    | .error err => ([.request request, .panic err], .panicked)
    | .ok replyParams =>
      let timestamp := replyParams.block_timestamp
      if replyParams.transactions.length == 0 then
        ([.request request], .broke)
      else
        let parsed := parseTransactions env.ParseTransactionFromJson replyParams.transactions 0
        let transactions := parsed.1
        let latestBlockNumber := parsed.2
        let logs := replyParams.logs.map env.ParseLog
        match env.SetBlockTimestamp calls key latestBlockNumber with
        | some err =>
          ([.request request, .setBlockTimestamp key latestBlockNumber (some err), .panic err],
            .panicked)
        | none =>
          let reply : Reply :=
            { Status := "OK", Message := "",
              Parameters := .snapshot transactions logs timestamp }
          let rest := snapshotLoop env key limit blockTimestampFrom fuel (calls + 1)
            ((page + 1) % 2 ^ 64) (if blockTimestampTo == 0 then timestamp else blockTimestampTo)
          (.request request :: .setBlockTimestamp key latestBlockNumber none
            :: .broadcast (NewBroadcast key reply) :: rest.1, rest.2)

/-- The method `snapshot` (`subscriber.go` 96-165) with its page loop bounded to
`fuel` iterations.  The exit is `broke` when the worker left the loop and
returned, after sending its completion notice. -/
def snapshot (env : SnapshotEnv) (smartcontractKeys : List String) (i : Nat) (port : Nat)
    (fuel : Nat) : List SnapshotEffect × LoopExit :=
  match smartcontractKeys[i]? with
  | none => ([.panic "index out of range"], .panicked)
  | some key =>
    let limit := 500
    let page := 1
    let blockTimestampFrom := env.GetBlockTimestamp key
    let blockTimestampTo := 0
    match snapshotLoop env key limit blockTimestampFrom fuel 0 page blockTimestampTo with
    | (effects, .broke) =>
      match env.TcpPushSocketOrPanic port with
      | some err => (.getBlockTimestamp key :: effects ++ [.panic err], .panicked)
      | none =>
        (.getBlockTimestamp key :: effects ++ [.pushSocket port, .sendMessage "", .close], .broke)
    | (effects, exit) => (.getBlockTimestamp key :: effects, exit)

/-- The page requests of a run, in order. -/
def requests : List SnapshotEffect → List Request
  | [] => []
  | .request r :: rest => r :: requests rest
  | _ :: rest => requests rest

/-- The checkpoints persisted by a run (the store writes that returned without
error), in order. -/
def persisted : List SnapshotEffect → List Nat
  | [] => []
  | .setBlockTimestamp _ ts none :: rest => ts :: persisted rest
  | _ :: rest => persisted rest

/-- The Event Batches pushed to the event-output channel by a run, in order. -/
def forwarded : List SnapshotEffect → List Broadcast
  | [] => []
  | .broadcast b :: rest => b :: forwarded rest
  | _ :: rest => forwarded rest

/-- The number of completion notices sent to the barrier. -/
def notices (effects : List SnapshotEffect) : Nat := effects.count (.sendMessage "")

/-- The Event Batch the worker builds from a page reply (`subscriber.go` 129-154). -/
def batchOf (env : SnapshotEnv) (key : String) (replyParams : SnapshotReply) : Broadcast :=
  NewBroadcast key
    { Status := "OK", Message := "",
      Parameters := .snapshot (replyParams.transactions.map env.ParseTransactionFromJson)
        (replyParams.logs.map env.ParseLog) replyParams.block_timestamp }

/-- The request of the page loop for given values of the loop variables
(`subscriber.go` 104-113). -/
def pageRequest (key : String) (blockTimestampFrom blockTimestampTo page limit : Nat) :
    Request :=
  { Command := "snapshot_get", smartcontract_key := key,
    block_timestamp_from := blockTimestampFrom,
    block_timestamp_to := blockTimestampTo, page := page, limit := limit }

/-- The maximum block timestamp over the transactions of a page (0 for an empty page). -/
def pageMax (env : SnapshotEnv) (replyParams : SnapshotReply) : Nat :=
  (replyParams.transactions.map
    (fun rawTx => (env.ParseTransactionFromJson rawTx).BlockTimestamp)).foldr max 0

/-- The first timestamp of the list that is not zero; zero when there is none. -/
def firstNonZero : List Nat → Nat
  | [] => 0
  | t :: ts => if t == 0 then firstNonZero ts else t

/-- The batch timestamps the remote service returns for the given requests,
sent in this order as the requests number `n`, `n + 1`, ... -/
def replyTimestamps (env : SnapshotEnv) : Nat → List Request → List Nat
  | _, [] => []
  | n, r :: rest =>
    match env.RequestRemoteService n r with
    | .ok replyParams => replyParams.block_timestamp :: replyTimestamps env (n + 1) rest
    | .error _ => replyTimestamps env (n + 1) rest

/-! ## `Subscriber.loop` -/

/-- The effects of the Live Loop, in program order. -/
inductive LoopEffect where
  | afterFunc (seconds : Nat)
  | goHeartbeat
  | recvMessage (msg_raw : List String) (err : Option String)
  | println (err : String)
  | broadcast (b : Broadcast)
  deriving DecidableEq, Repr

/-- The `for` loop of `loop` (`subscriber.go` 252-274) on the results of the
successive `RecvMessage` calls, each a message together with an error (`none`
for nil).  `ParseBroadcast` is declared outside the sources at hand and is
taken as given.  The flag tells whether the loop was left; it is `false` when
the loop is still blocked in `RecvMessage` after the last result. -/
def recvLoop (ParseBroadcast : List String → Except String Broadcast) (Address : String) :
    List (List String × Option String) → List LoopEffect × Bool
  | [] => ([], false)
  | (msg_raw, err) :: rest =>
    let printed : List LoopEffect :=
      match err with
      | some e => [.println "error in sub receive", .println e]
      | none => []
    if msg_raw.length == 0 then
      (.recvMessage msg_raw err :: printed, true)
    else
      match ParseBroadcast msg_raw with
      | .error e =>
        (.recvMessage msg_raw err :: printed ++
          [.broadcast (NewBroadcast Address
            { Status := "fail", Message := "Error when parsing message " ++ e,
              Parameters := .empty })], true)
      | .ok b =>
        if !b.IsOK then
          (.recvMessage msg_raw err :: printed ++ [.broadcast b], true)
        else
          let r := recvLoop ParseBroadcast Address rest
          (.recvMessage msg_raw err :: printed ++ .broadcast b :: r.1, r.2)

/-- The method `loop` (`subscriber.go` 242-275): the watchdog timer is armed,
the heartbeat goroutine is launched, then messages are received. -/
def loop (ParseBroadcast : List String → Except String Broadcast) (Address : String)
    (recvs : List (List String × Option String)) : List LoopEffect × Bool :=
  let r := recvLoop ParseBroadcast Address recvs
  (.afterFunc 10 :: .goHeartbeat :: r.1, r.2)

/-- The events pushed to the event-output channel by the Live Loop, in order. -/
def delivered : List LoopEffect → List Broadcast
  | [] => []
  | .broadcast b :: rest => b :: delivered rest
  | _ :: rest => delivered rest

/-- The number of `RecvMessage` calls that returned. -/
def receives : List LoopEffect → Nat
  | [] => 0
  | .recvMessage _ _ :: rest => receives rest + 1
  | _ :: rest => receives rest

/-- The broadcasts up to and including the first one whose status is not "OK". -/
def uptoFirstBad : List Broadcast → List Broadcast
  | [] => []
  | b :: rest => if b.IsOK then b :: uptoFirstBad rest else [b]

/-! ## `Subscriber.heartbeat` and the watchdog timer -/

/-- The effects of the Heartbeat Monitor: those of the probe loop, and
`timeout`, the push made by the timer callback set up in `loop`. -/
inductive HealthEffect where
  | timerReset (seconds : Nat)
  | probe (reply : Reply)
  | send (reply : Reply)
  | sleep (seconds : Nat)
  | timeout (reply : Reply)
  deriving DecidableEq, Repr

/-- The method `heartbeat` (`subscriber.go` 228-240) on the replies of the
successive `Heartbeat(s)` calls.  The flag tells whether the loop was left; it
is `false` when the loop is blocked in `Heartbeat(s)` after the last reply. -/
def heartbeat : List Reply → List HealthEffect × Bool
  | [] => ([.timerReset 10], false)
  | heartbeatReply :: rest =>
    if !heartbeatReply.IsOK then
      ([.timerReset 10, .probe heartbeatReply, .send heartbeatReply], true)
    else
      let r := heartbeat rest
      (.timerReset 10 :: .probe heartbeatReply :: .sleep 2 :: r.1, r.2)

/-- The signals pushed to the health-output channel, in order, whichever task
pushed them. -/
def signals : List HealthEffect → List Reply
  | [] => []
  | .send r :: rest => r :: signals rest
  | .timeout r :: rest => r :: signals rest
  | _ :: rest => signals rest

/-- The signals pushed by the probe loop, in order. -/
def sent : List HealthEffect → List Reply
  | [] => []
  | .send r :: rest => r :: sent rest
  | _ :: rest => sent rest

/-- The replies of the probes that returned, in order. -/
def probes : List HealthEffect → List Reply
  | [] => []
  | .probe r :: rest => r :: probes rest
  | _ :: rest => probes rest

/-- The first reply that is not OK, if any. -/
def firstBad : List Reply → Option Reply
  | [] => none
  | r :: rest => if r.IsOK then firstBad rest else some r

/-- The number of replies up to and including the first one that is not OK. -/
def badIndex : List Reply → Nat
  | [] => 0
  | r :: rest => if r.IsOK then badIndex rest + 1 else 1

/-- Where the heartbeat goroutine stands: about to reset the timer, inside
`Heartbeat(s)`, asleep, or returned. -/
inductive Pc where
  | atReset
  | atProbe
  | atSleep
  | exited
  deriving DecidableEq, Repr

/-- The Heartbeat Monitor as two concurrent tasks: the heartbeat goroutine at
`pc`, and the timer, pending when `armed`; `log` is what they did so far. -/
structure Monitor where
  pc : Pc
  armed : Bool
  log : List HealthEffect
  deriving DecidableEq, Repr

/-- One scheduling decision: the heartbeat goroutine runs its next statement
(`reply` is what `Heartbeat(s)` returns, when that is the statement), or the
timer expires and its callback runs. -/
inductive Action where
  | hb (reply : Reply)
  | fire
  deriving DecidableEq, Repr

/-- The reply pushed by the timer callback (`subscriber.go` 244). -/
def timeoutReply : Reply :=
  { Status := "fail", Message := "Server is not responding", Parameters := .empty }

/-- The monitor as `loop` leaves it (`subscriber.go` 243-247): the timer armed
by `time.AfterFunc`, the heartbeat goroutine at the top of its loop. -/
def Monitor.init : Monitor := { pc := .atReset, armed := true, log := [] }

/-- One step of the monitor; `none` when the chosen task cannot move.  A
`Reset` arms the timer whether or not it has expired, and nothing stops it. -/
def Monitor.step (m : Monitor) : Action → Option Monitor
  | .fire =>
    if m.armed then
      some { m with armed := false, log := m.log ++ [.timeout timeoutReply] }
    else none
  | .hb heartbeatReply =>
    match m.pc with
    | .atReset => some { m with pc := .atProbe, armed := true, log := m.log ++ [.timerReset 10] }
    | .atProbe =>
      if !heartbeatReply.IsOK then
        some { m with pc := .exited,
                      log := m.log ++ [.probe heartbeatReply, .send heartbeatReply] }
      else
        some { m with pc := .atSleep, log := m.log ++ [.probe heartbeatReply] }
    | .atSleep => some { m with pc := .atReset, log := m.log ++ [.sleep 2] }
    | .exited => none

/-- The monitor after a schedule; `none` when the schedule asks a task to move
that cannot. -/
def Monitor.run (m : Monitor) : List Action → Option Monitor
  | [] => some m
  | a :: rest =>
    match m.step a with
    | none => none
    | some m1 => Monitor.run m1 rest

/-- The schedule on which the timer never expires and the probes return
`replies`: each turn of the loop is a reset, a probe and, after an OK reply, a
sleep; after the last reply the loop resets the timer and waits in its probe. -/
def probeSchedule : List Reply → List Action
  | [] => [.hb okReply]
  | r :: rest =>
    if !r.IsOK then [.hb r, .hb r] else .hb r :: .hb r :: .hb r :: probeSchedule rest

/-- What the monitor did after the probe loop pushed its signal. -/
def afterSend : List HealthEffect → List HealthEffect
  | [] => []
  | .send _ :: rest => rest
  | _ :: rest => afterSend rest

/-! ## Concrete collaborators

Small collaborators on which the embedded functions are evaluated. -/

/-- A gateway on which every call succeeds; the broadcast port is 4000. -/
def gatewayUp : StartEnv :=
  { NewSub := none, SetSubscribe := fun _ _ => none, RemoteBroadcastPort := .ok 4000 }

/-- A gateway that refuses the second subscribe call. -/
def gatewayRefusing : StartEnv :=
  { NewSub := none,
    SetSubscribe := fun n _ => if n == 1 then some "refused" else none,
    RemoteBroadcastPort := .ok 4000 }

/-- A raw transaction with the given block timestamp. -/
def txAt (t : Nat) : RawJson := [("block_timestamp", .num t)]

/-- A transaction parser that reads the field `block_timestamp`. -/
def parseTx (rawTx : RawJson) : Transaction :=
  { BlockTimestamp :=
      match rawTx.lookup "block_timestamp" with
      | some (.num n) => n
      | _ => 0,
    fields := rawTx }

/-- A log parser that keeps the fields. -/
def parseLog (rawLog : RawJson) : Log := { fields := rawLog }

/-- A page without transactions. -/
def emptyPage : SnapshotReply := { transactions := [], logs := [], block_timestamp := 0 }

/-- A remote service that answers the `n`-th request with the `n`-th page of
`pages` and with an empty page afterwards, next to a store that holds
`checkpoint` and accepts every write, and a completion socket that opens. -/
def pagesEnv (checkpoint : Nat) (pages : List SnapshotReply) : SnapshotEnv :=
  { GetBlockTimestamp := fun _ => checkpoint
    SetBlockTimestamp := fun _ _ _ => none
    RequestRemoteService := fun n _ => .ok (pages.getD n emptyPage)
    ParseTransactionFromJson := parseTx
    ParseLog := parseLog
    TcpPushSocketOrPanic := fun _ => none }

/-- A backfill source that holds `total` transactions and serves them in pages
of 500: page `p` holds the transactions `(p - 1) * 500`, ..., up to 500 of them. -/
def pagedSource (total : Nat) (p : Nat) : SnapshotReply :=
  { transactions := List.replicate (min 500 (total - (p - 1) * 500)) (txAt 7)
    logs := []
    block_timestamp := 9 }

/-- The collaborators of a worker that reads from `pagedSource total`. -/
def sourceEnv (total : Nat) : SnapshotEnv :=
  { GetBlockTimestamp := fun _ => 1
    SetBlockTimestamp := fun _ _ _ => none
    RequestRemoteService := fun _ r => .ok (pagedSource total r.page)
    ParseTransactionFromJson := parseTx
    ParseLog := parseLog
    TcpPushSocketOrPanic := fun _ => none }

/-- A wire format of two frames, the topic and the status. -/
def parseTwoFrames : List String → Except String Broadcast
  | [topic, status] => .ok (NewBroadcast topic { Status := status, Message := "", Parameters := .empty })
  | _ => .error "malformed"

/-- Two pages, the second with older transactions than the first. -/
def decreasingPages : List SnapshotReply :=
  [{ transactions := [txAt 10], logs := [], block_timestamp := 20 },
   { transactions := [txAt 5], logs := [], block_timestamp := 20 }]

/-- Two pages served oldest first. -/
def increasingPages : List SnapshotReply :=
  [{ transactions := [txAt 5, txAt 9, txAt 7], logs := [], block_timestamp := 20 },
   { transactions := [txAt 10], logs := [], block_timestamp := 30 }]

/-- Three pages, the first of which comes with the batch timestamp 0. -/
def zeroStampPages : List SnapshotReply :=
  [{ transactions := [txAt 6], logs := [], block_timestamp := 0 },
   { transactions := [txAt 7], logs := [], block_timestamp := 7 },
   { transactions := [txAt 8], logs := [], block_timestamp := 9 }]

/-- The two messages of the scenario "one OK broadcast, then one that is not". -/
def okThenBad : List (List String × Broadcast) :=
  [(["t", "OK"], NewBroadcast "t" { Status := "OK", Message := "", Parameters := .empty }),
   (["t", "fail"], NewBroadcast "t" { Status := "fail", Message := "", Parameters := .empty })]

/-- Two results of `RecvMessage`: an error with an empty message, then an OK
broadcast. -/
def interruptedThenOk : List (List String × Option String) :=
  [([], some "interrupted system call"), (["t", "OK"], none)]

/-- A schedule of the monitor: the timer is reset, the probe fails, and the
timer, left armed, expires. -/
def failThenExpire : List Action := [.hb okReply, .hb downReply, .fire]

/-- A schedule of the monitor: the timer expires while the probe hangs; the
probe then returns OK and the loop goes on to sleep, reset the timer and probe. -/
def expireThenProbe : List Action :=
  [.hb okReply, .fire, .hb okReply, .hb okReply, .hb okReply, .hb okReply]

/-! ## Theorems: `Start` -/

theorem subscribeAll_not_launch (env : StartEnv) (keys : List String) (n : Nat) :
    ∀ x ∈ (subscribeAll env n keys).1, x.isLaunch = false := by
  induction keys generalizing n with
  | nil => intro x hx; simp [subscribeAll] at hx
  | cons key keys ih =>
    intro x hx
    unfold subscribeAll at hx
    cases h : env.SetSubscribe n key with
    | some err =>
      simp only [h, List.mem_singleton] at hx
      subst hx; rfl
    | none =>
      simp only [h, List.mem_cons] at hx
      rcases hx with hx | hx
      · subst hx; rfl
      · exact ih (n + 1) x hx

theorem subscribeAll_failed (env : StartEnv) (keys : List String) (n : Nat) (k e : String)
    (h : StartEffect.setSubscribe k (some e) ∈ (subscribeAll env n keys).1) :
    (subscribeAll env n keys).2 ≠ none := by
  induction keys generalizing n with
  | nil => simp [subscribeAll] at h
  | cons key keys ih =>
    unfold subscribeAll at h ⊢
    cases hs : env.SetSubscribe n key with
    | some err => simp
    | none =>
      simp only [hs, List.mem_cons] at h ⊢
      rcases h with h | h
      · cases h
      · exact ih (n + 1) h

theorem filterMap_before {α β : Type} (f : α → Option β) (p : α → Prop)
    (A B pre post : List α) (x : α) (hx : p x)
    (hA : ∀ a ∈ A, ¬ p a) (hB : ∀ b ∈ B, f b = none)
    (h : A ++ B = pre ++ x :: post) :
    pre.filterMap f = A.filterMap f := by
  rcases List.append_eq_append_iff.mp h with ⟨a, h1, h2⟩ | ⟨c, h1, h2⟩
  · subst h1
    have : a.filterMap f = [] := by
      rw [List.filterMap_eq_nil_iff]
      intro y hy
      exact hB y (by rw [h2]; simp [hy])
    simp [this]
  · cases c with
    | nil => simp at h1; rw [h1]
    | cons y c =>
      simp only [List.cons_append, List.cons.injEq] at h2
      exfalso
      apply hA x _ hx
      rw [h1, h2.1]; simp

theorem subscribeAll_effects (env : StartEnv) (keys : List String) (n : Nat)
    (h : (subscribeAll env n keys).2 = none) :
    (subscribeAll env n keys).1 = keys.map (fun k => StartEffect.setSubscribe k none) := by
  induction keys generalizing n with
  | nil => simp [subscribeAll]
  | cons key keys ih =>
    unfold subscribeAll at h ⊢
    cases hs : env.SetSubscribe n key with
    | some err => simp [hs] at h
    | none =>
      simp only [hs] at h ⊢
      simp [ih (n + 1) h]

theorem Start_error (env : StartEnv) (keys : List String)
    (h : (Start env keys).2 ≠ none) :
    ∀ x ∈ (Start env keys).1, x.isLaunch = false := by
  have hnl := subscribeAll_not_launch env keys 0
  unfold Start at h ⊢
  cases hn : env.NewSub with
  | some err => simp [StartEffect.isLaunch]
  | none =>
    rcases hs : subscribeAll env 0 keys with ⟨subs, serr⟩
    rw [hs] at hnl
    cases serr with
    | some err =>
      intro x hx
      simp at hx
      rcases hx with hx | hx
      · subst hx; rfl
      · exact hnl x hx
    | none =>
      cases hp : getSinkPort env with
      | error e =>
        intro x hx
        simp at hx
        rcases hx with hx | hx | hx
        · subst hx; rfl
        · exact hnl x hx
        · subst hx; rfl
      | ok p => simp [hn, hs, hp] at h

theorem Start_success (env : StartEnv) (keys : List String)
    (h : (Start env keys).2 = none) :
    ∃ port, (Start env keys).1 =
      (StartEffect.newSub :: keys.map (fun k => StartEffect.setSubscribe k none)
        ++ [StartEffect.remoteBroadcastPort, StartEffect.goRunSink port (keys.length : Int)])
      ++ (List.range keys.length).map (fun i => StartEffect.goSnapshot i port) := by
  unfold Start at h ⊢
  cases hn : env.NewSub with
  | some err => simp [hn] at h
  | none =>
    rcases hs : subscribeAll env 0 keys with ⟨subs, serr⟩
    cases serr with
    | some err => simp [hn, hs] at h
    | none =>
      have hsub := subscribeAll_effects env keys 0 (by rw [hs])
      rw [hs] at hsub
      simp only at hsub
      cases hp : getSinkPort env with
      | error e => simp [hn, hs, hp] at h
      | ok p =>
        refine ⟨p, ?_⟩
        simp [hsub]

/-- Claim C1 (subscribe before backfill).  In the effects of `Start`, whatever the
collaborators answer: ahead of any launch of a snapshot worker stand the
subscribe calls of all topics, each returned without error, in the order of the
topics; and when a subscribe call returns an error, `Start` returns an error
and launches neither a snapshot worker nor the barrier listener. -/
theorem Start_subscribe_before_backfill (env : StartEnv) (smartcontractKeys : List String) :
    (∀ pre post i port,
        (Start env smartcontractKeys).1 = pre ++ StartEffect.goSnapshot i port :: post →
        pre.filterMap StartEffect.subscribed = smartcontractKeys) ∧
    ((∃ k e, StartEffect.setSubscribe k (some e) ∈ (Start env smartcontractKeys).1) →
        (Start env smartcontractKeys).2 ≠ none ∧
        ∀ x ∈ (Start env smartcontractKeys).1, x.isLaunch = false) := by
  refine ⟨?_, ?_⟩
  · intro pre post i port h
    cases hr : (Start env smartcontractKeys).2 with
    | some err =>
      have := Start_error env smartcontractKeys (by rw [hr]; simp)
        (StartEffect.goSnapshot i port) (by rw [h]; simp)
      simp [StartEffect.isLaunch] at this
    | none =>
      obtain ⟨p, hp⟩ := Start_success env smartcontractKeys hr
      rw [hp] at h
      have key := filterMap_before StartEffect.subscribed
        (fun x => ∃ i port, x = StartEffect.goSnapshot i port) _ _
        pre post (StartEffect.goSnapshot i port) ⟨i, port, rfl⟩ ?_ ?_ h
      · rw [key]
        simp only [List.cons_append, List.filterMap_cons, List.filterMap_append,
          List.filterMap_map, StartEffect.subscribed, List.filterMap_nil, List.append_nil]
        have hid : (StartEffect.subscribed ∘ fun k => StartEffect.setSubscribe k none)
            = (some : String → Option String) := by
          funext k; rfl
        rw [hid, List.filterMap_some]
      · rintro a ha ⟨i1, p1, hi⟩
        subst hi
        simp at ha
      · intro b hb
        simp only [List.mem_map] at hb
        obtain ⟨j, _, hj⟩ := hb
        subst hj; rfl
  · rintro ⟨k, e, hm⟩
    have hne : (Start env smartcontractKeys).2 ≠ none := by
      intro hr
      obtain ⟨p, hp⟩ := Start_success env smartcontractKeys hr
      rw [hp] at hm
      simp at hm
    exact ⟨hne, Start_error env smartcontractKeys hne⟩

/-! ## Theorems: `runSink` -/

theorem decInt_cast (n : Nat) (h1 : 1 ≤ n) (h2 : n < 2 ^ 63) :
    decInt (n : Int) = ((n - 1 : Nat) : Int) := by
  unfold decInt
  have e63 : (2 : Int) ^ 63 = 9223372036854775808 := by norm_num
  have e64 : (2 : Int) ^ 64 = 18446744073709551616 := by norm_num
  have f63 : (2 : Nat) ^ 63 = 9223372036854775808 := by norm_num
  rw [f63] at h2
  rw [e63, e64]
  omega

theorem runSinkLoop_spec (recvs : List (Option String)) (n : Nat) (h1 : 1 ≤ n)
    (h2 : n < 2 ^ 63) :
    ((runSinkLoop (n : Int) recvs).2 = true ↔ n ≤ successes recvs) ∧
    (runSinkLoop (n : Int) recvs).1.count (SinkEffect.recvMessage none)
      = min n (successes recvs) ∧
    (runSinkLoop (n : Int) recvs).1.count SinkEffect.goLoop = 0 := by
  induction recvs generalizing n with
  | nil =>
    simp only [runSinkLoop, successes, List.count_nil]
    refine ⟨?_, ?_, trivial⟩
    · constructor
      · intro h; cases h
      · intro h; omega
    · simp
  | cons r recvs ih =>
    cases r with
    | some err =>
      obtain ⟨ih1, ih2, ih3⟩ := ih n h1 h2
      have hs : successes (some err :: recvs) = successes recvs := by
        simp [successes, List.count_cons]
      simp only [runSinkLoop, hs]
      refine ⟨ih1, ?_, ?_⟩
      · simpa [List.count_cons] using ih2
      · simpa [List.count_cons] using ih3
    | none =>
      have hs : successes (none :: recvs) = successes recvs + 1 := by
        simp [successes, List.count_cons]
      have hd := decInt_cast n h1 h2
      by_cases hn : n = 1
      · subst hn
        have hz : decInt ((1 : Nat) : Int) = 0 := by rw [hd]; rfl
        simp only [runSinkLoop, hz, hs]
        simp [List.count_cons]
      · have hnz : ¬ (((n - 1 : Nat) : Int) == 0) = true := by
          simp only [beq_iff_eq]
          omega
        obtain ⟨ih1, ih2, ih3⟩ := ih (n - 1) (by omega) (by omega)
        simp only [runSinkLoop, hs, hd]
        rw [if_neg hnz]
        refine ⟨?_, ?_, ?_⟩
        · rw [ih1]; omega
        · rw [List.count_cons_self, ih2]; omega
        · simpa [List.count_cons] using ih3

/-- Claim C2 (exactly-once completion).  For a topic count `N` with `1 ≤ N` (a Go
`int`, so below `2 ^ 63`) and every sequence of receive results, errors not
counting as completions: the barrier listener launches the Live Loop at most
once; it has launched it exactly when it has received `N` completions; and the
completions it has received are the first `N` that arrived, so that the
launch happens upon the `N`-th, not before, and a later one is never taken. -/
theorem runSink_exactly_once (port N : Nat) (hN : 1 ≤ N) (hInt : N < 2 ^ 63)
    (recvs : List (Option String)) :
    releases (runSink none port (N : Int) recvs) ≤ 1 ∧
    (releases (runSink none port (N : Int) recvs) = 1 ↔
      completions (runSink none port (N : Int) recvs) = N) ∧
    completions (runSink none port (N : Int) recvs) = min N (successes recvs) ∧
    (releases (runSink none port (N : Int) recvs) = 1 ↔ N ≤ successes recvs) := by
  obtain ⟨h1, h2, h3⟩ := runSinkLoop_spec recvs N hN hInt
  unfold runSink releases completions
  rcases hl : runSinkLoop (N : Int) recvs with ⟨effects, b⟩
  rw [hl] at h1 h2 h3
  simp only at h1 h2 h3
  cases b with
  | true =>
    have hle : N ≤ successes recvs := h1.mp rfl
    have hc : List.count (SinkEffect.recvMessage none)
        (SinkEffect.pullSocket port :: effects ++ [SinkEffect.goLoop, SinkEffect.close])
        = min N (successes recvs) := by
      simp [List.count_cons, List.count_append, h2]
    have hr : List.count SinkEffect.goLoop
        (SinkEffect.pullSocket port :: effects ++ [SinkEffect.goLoop, SinkEffect.close]) = 1 := by
      simp [List.count_cons, List.count_append, h3]
    simp only [hc, hr]
    refine ⟨le_refl _, ?_, trivial, ?_⟩
    · simp [hle]
    · simp [hle]
  | false =>
    have hlt : ¬ N ≤ successes recvs := fun h => by
      have := h1.mpr h
      cases this
    have hc : List.count (SinkEffect.recvMessage none) (SinkEffect.pullSocket port :: effects)
        = min N (successes recvs) := by
      simp [List.count_cons, h2]
    have hr : List.count SinkEffect.goLoop (SinkEffect.pullSocket port :: effects) = 0 := by
      simp [List.count_cons, h3]
    simp only [hc, hr]
    refine ⟨by omega, ?_, trivial, ?_⟩
    · constructor
      · intro h; omega
      · intro h
        have : min N (successes recvs) = successes recvs := by omega
        omega
    · constructor
      · intro h; omega
      · intro h; omega

/-! ## Theorems: `snapshot` -/

theorem parseTransactions_fst (parse : RawJson → Transaction) (l : List RawJson) (a : Nat) :
    (parseTransactions parse l a).1 = l.map parse := by
  induction l generalizing a with
  | nil => rfl
  | cons raw l ih => simp [parseTransactions, ih]

theorem parseTransactions_snd (parse : RawJson → Transaction) (l : List RawJson) (a : Nat) :
    (parseTransactions parse l a).2
      = max a ((l.map (fun rawTx => (parse rawTx).BlockTimestamp)).foldr max 0) := by
  induction l generalizing a with
  | nil => simp [parseTransactions]
  | cons raw l ih =>
    simp only [parseTransactions, ih, List.map_cons, List.foldr_cons]
    split <;> omega

theorem foldr_max_ge (l : List Nat) : ∀ x ∈ l, x ≤ l.foldr max 0 := by
  induction l with
  | nil => intro x hx; cases hx
  | cons y l ih =>
    intro x hx
    simp only [List.mem_cons] at hx
    simp only [List.foldr_cons]
    rcases hx with hx | hx
    · subst hx; exact le_max_left _ _
    · exact le_trans (ih x hx) (le_max_right _ _)

theorem foldr_max_mem (l : List Nat) (h : l ≠ []) : l.foldr max 0 ∈ l := by
  induction l with
  | nil => exact absurd rfl h
  | cons y l ih =>
    simp only [List.foldr_cons, List.mem_cons]
    by_cases hl : l = []
    · subst hl; simp
    · rcases le_total y (l.foldr max 0) with hle | hle
      · right; rw [max_eq_right hle]; exact ih hl
      · left; exact max_eq_left hle

theorem snapshotLoop_zero (env : SnapshotEnv) (key : String) (limit start calls page upto : Nat) :
    snapshotLoop env key limit start 0 calls page upto = ([], .running) := rfl

theorem snapshotLoop_error (env : SnapshotEnv) (key : String)
    (limit start fuel calls page upto : Nat) (e : String)
    (h : env.RequestRemoteService calls (pageRequest key start upto page limit) = .error e) :
    snapshotLoop env key limit start (fuel + 1) calls page upto
      = ([.request (pageRequest key start upto page limit), .panic e], .panicked) := by
  unfold pageRequest at h
  simp only [snapshotLoop, h, pageRequest]

theorem snapshotLoop_empty (env : SnapshotEnv) (key : String)
    (limit start fuel calls page upto : Nat) (rep : SnapshotReply)
    (h : env.RequestRemoteService calls (pageRequest key start upto page limit) = .ok rep)
    (he : rep.transactions = []) :
    snapshotLoop env key limit start (fuel + 1) calls page upto
      = ([.request (pageRequest key start upto page limit)], .broke) := by
  unfold pageRequest at h
  simp [snapshotLoop, h, pageRequest, he]

theorem snapshotLoop_storeError (env : SnapshotEnv) (key : String)
    (limit start fuel calls page upto : Nat) (rep : SnapshotReply) (e : String)
    (h : env.RequestRemoteService calls (pageRequest key start upto page limit) = .ok rep)
    (hne : rep.transactions ≠ [])
    (hs : env.SetBlockTimestamp calls key (pageMax env rep) = some e) :
    snapshotLoop env key limit start (fuel + 1) calls page upto
      = ([.request (pageRequest key start upto page limit),
          .setBlockTimestamp key (pageMax env rep) (some e), .panic e], .panicked) := by
  unfold pageRequest at h
  have hv : (parseTransactions env.ParseTransactionFromJson rep.transactions 0).2
      = pageMax env rep := by
    rw [parseTransactions_snd]; simp [pageMax]
  simp [snapshotLoop, h, pageRequest, hne, hv, hs]

theorem snapshotLoop_next (env : SnapshotEnv) (key : String)
    (limit start fuel calls page upto : Nat) (rep : SnapshotReply)
    (h : env.RequestRemoteService calls (pageRequest key start upto page limit) = .ok rep)
    (hne : rep.transactions ≠ [])
    (hs : env.SetBlockTimestamp calls key (pageMax env rep) = none) :
    snapshotLoop env key limit start (fuel + 1) calls page upto
      = (.request (pageRequest key start upto page limit)
          :: .setBlockTimestamp key (pageMax env rep) none
          :: .broadcast (batchOf env key rep)
          :: (snapshotLoop env key limit start fuel (calls + 1) ((page + 1) % 2 ^ 64)
                (if upto == 0 then rep.block_timestamp else upto)).1,
         (snapshotLoop env key limit start fuel (calls + 1) ((page + 1) % 2 ^ 64)
                (if upto == 0 then rep.block_timestamp else upto)).2) := by
  unfold pageRequest at h
  have hv : (parseTransactions env.ParseTransactionFromJson rep.transactions 0).2
      = pageMax env rep := by
    rw [parseTransactions_snd]; simp [pageMax]
  simp [snapshotLoop, h, pageRequest, hne, hv, hs, batchOf, parseTransactions_fst]

theorem requests_append (a b : List SnapshotEffect) :
    requests (a ++ b) = requests a ++ requests b := by
  induction a with
  | nil => rfl
  | cons x a ih => cases x <;> simp [requests, ih]

theorem forwarded_append (a b : List SnapshotEffect) :
    forwarded (a ++ b) = forwarded a ++ forwarded b := by
  induction a with
  | nil => rfl
  | cons x a ih => cases x <;> simp [forwarded, ih]

theorem persisted_append (a b : List SnapshotEffect) :
    persisted (a ++ b) = persisted a ++ persisted b := by
  induction a with
  | nil => rfl
  | cons x a ih =>
    cases x with
    | setBlockTimestamp k v e => cases e <;> simp [persisted, ih]
    | _ => simp [persisted, ih]

theorem snapshotLoop_page (env : SnapshotEnv) (key : String) (limit start : Nat) :
    ∀ (fuel calls page upto : Nat) (pre post : List SnapshotEffect) (r : Request)
      (rep : SnapshotReply),
      (snapshotLoop env key limit start fuel calls page upto).1
        = pre ++ SnapshotEffect.request r :: post →
      env.RequestRemoteService (calls + (requests pre).length) r = .ok rep →
      rep.transactions ≠ [] →
      (env.SetBlockTimestamp (calls + (requests pre).length) key (pageMax env rep) = none ∧
        ∃ rest, post = SnapshotEffect.setBlockTimestamp key (pageMax env rep) none
          :: SnapshotEffect.broadcast (batchOf env key rep) :: rest) ∨
      (∃ e, env.SetBlockTimestamp (calls + (requests pre).length) key (pageMax env rep) = some e ∧
        post = [SnapshotEffect.setBlockTimestamp key (pageMax env rep) (some e),
          SnapshotEffect.panic e] ∧
        (snapshotLoop env key limit start fuel calls page upto).2 = .panicked) := by
  intro fuel
  induction fuel with
  | zero =>
    intro calls page upto pre post r rep h
    rw [snapshotLoop_zero] at h
    simp at h
  | succ fuel ih =>
    intro calls page upto pre post r rep h hrep hne
    cases hR : env.RequestRemoteService calls (pageRequest key start upto page limit) with
    | error e =>
      rw [snapshotLoop_error env key limit start fuel calls page upto e hR] at h
      rcases pre with _ | ⟨a, pre⟩
      · simp only [List.nil_append, List.cons.injEq, SnapshotEffect.request.injEq] at h
        rw [← h.1] at hrep
        simp [requests, hR] at hrep
      · rcases pre with _ | ⟨b, pre⟩
        · simp at h
        · simp at h
    | ok rep0 =>
      by_cases he : rep0.transactions = []
      · rw [snapshotLoop_empty env key limit start fuel calls page upto rep0 hR he] at h
        rcases pre with _ | ⟨a, pre⟩
        · simp only [List.nil_append, List.cons.injEq, SnapshotEffect.request.injEq] at h
          rw [← h.1] at hrep
          simp only [requests, List.length_nil, Nat.add_zero, hR, Except.ok.injEq] at hrep
          subst hrep
          exact absurd he hne
        · simp at h
      · cases hS : env.SetBlockTimestamp calls key (pageMax env rep0) with
        | some e =>
          rw [snapshotLoop_storeError env key limit start fuel calls page upto rep0 e hR he hS] at h ⊢
          rcases pre with _ | ⟨a, pre⟩
          · simp only [List.nil_append, List.cons.injEq, SnapshotEffect.request.injEq] at h
            rw [← h.1] at hrep
            simp only [requests, List.length_nil, Nat.add_zero, hR, Except.ok.injEq] at hrep
            subst hrep
            right
            exact ⟨e, by simpa [requests] using hS, h.2.symm, rfl⟩
          · rcases pre with _ | ⟨b, pre⟩
            · simp at h
            · rcases pre with _ | ⟨c, pre⟩
              · simp at h
              · simp at h
        | none =>
          rw [snapshotLoop_next env key limit start fuel calls page upto rep0 hR he hS] at h ⊢
          rcases pre with _ | ⟨a, pre⟩
          · simp only [List.nil_append, List.cons.injEq, SnapshotEffect.request.injEq] at h
            rw [← h.1] at hrep
            simp only [requests, List.length_nil, Nat.add_zero, hR, Except.ok.injEq] at hrep
            subst hrep
            left
            exact ⟨by simpa [requests] using hS, _, h.2.symm⟩
          · rcases pre with _ | ⟨b, pre⟩
            · simp at h
            · rcases pre with _ | ⟨c, pre⟩
              · simp at h
              · simp only [List.cons_append, List.cons.injEq] at h
                obtain ⟨h1, h2, h3, h4⟩ := h
                subst h1 h2 h3
                have hlen : calls + (requests
                    (SnapshotEffect.request (pageRequest key start upto page limit)
                      :: SnapshotEffect.setBlockTimestamp key (pageMax env rep0) none
                      :: SnapshotEffect.broadcast (batchOf env key rep0) :: pre)).length
                    = (calls + 1) + (requests pre).length := by
                  simp [requests]; omega
                rw [hlen] at hrep ⊢
                exact ih (calls + 1) _ _ pre post r rep h4 hrep hne

theorem snapshot_effects (env : SnapshotEnv) (keys : List String) (i port fuel : Nat)
    (key : String) (hk : keys[i]? = some key) :
    ∃ tail, (snapshot env keys i port fuel).1
        = SnapshotEffect.getBlockTimestamp key
          :: (snapshotLoop env key 500 (env.GetBlockTimestamp key) fuel 0 1 0).1 ++ tail ∧
      requests tail = [] ∧ forwarded tail = [] ∧ persisted tail = [] ∧
      ((snapshotLoop env key 500 (env.GetBlockTimestamp key) fuel 0 1 0).2 ≠ .broke →
        tail = []) := by
  unfold snapshot
  simp only [hk]
  rcases hl : snapshotLoop env key 500 (env.GetBlockTimestamp key) fuel 0 1 0 with ⟨effects, ex⟩
  cases ex with
  | running => exact ⟨[], by simp, rfl, rfl, rfl, fun _ => rfl⟩
  | panicked => exact ⟨[], by simp, rfl, rfl, rfl, fun _ => rfl⟩
  | broke =>
    cases hp : env.TcpPushSocketOrPanic port with
    | some e => exact ⟨[.panic e], by simp, rfl, rfl, rfl, fun h => absurd rfl h⟩
    | none =>
      exact ⟨[.pushSocket port, .sendMessage "", .close], by simp, rfl, rfl, rfl,
        fun h => absurd rfl h⟩

theorem request_not_mem_of_requests_nil (tail : List SnapshotEffect) (h : requests tail = [])
    (r : Request) : SnapshotEffect.request r ∉ tail := by
  induction tail with
  | nil => simp
  | cons x tail ih =>
    cases x <;> simp_all [requests]

/-- Claim C4 (the persisted value is the page maximum, written before the push).  In
every run of a snapshot worker, for every page request whose reply is a
non-empty page: the next effect is the store write `SetBlockTimestamp` for the
topic, with the maximum block timestamp `v` over the transactions of that page;
when the write succeeds the effect after it is the push of that page's Event
Batch, and when the write fails the worker panics and the run ends there, so
the page is not forwarded. -/
theorem snapshot_persists_page_maximum (env : SnapshotEnv) (smartcontractKeys : List String)
    (i port fuel : Nat) (pre post : List SnapshotEffect) (r : Request) (rep : SnapshotReply)
    (h : (snapshot env smartcontractKeys i port fuel).1 = pre ++ SnapshotEffect.request r :: post)
    (hrep : env.RequestRemoteService (requests pre).length r = .ok rep)
    (hne : rep.transactions ≠ []) :
    ∃ key v, smartcontractKeys[i]? = some key ∧
      (∀ rawTx ∈ rep.transactions, (env.ParseTransactionFromJson rawTx).BlockTimestamp ≤ v) ∧
      (∃ rawTx ∈ rep.transactions, (env.ParseTransactionFromJson rawTx).BlockTimestamp = v) ∧
      ((env.SetBlockTimestamp (requests pre).length key v = none ∧
          ∃ rest, post = SnapshotEffect.setBlockTimestamp key v none
            :: SnapshotEffect.broadcast (batchOf env key rep) :: rest) ∨
        (∃ e, env.SetBlockTimestamp (requests pre).length key v = some e ∧
          post = [SnapshotEffect.setBlockTimestamp key v (some e), SnapshotEffect.panic e])) := by
  cases hk : smartcontractKeys[i]? with
  | none =>
    simp only [snapshot, hk] at h
    rcases pre with _ | ⟨a, pre⟩ <;> simp at h
  | some key =>
    obtain ⟨tail, ht, hrq, _, _, htail⟩ := snapshot_effects env smartcontractKeys i port fuel key hk
    rw [ht] at h
    have hmax1 : ∀ rawTx ∈ rep.transactions,
        (env.ParseTransactionFromJson rawTx).BlockTimestamp ≤ pageMax env rep := by
      intro raw hraw
      exact foldr_max_ge _ _ (List.mem_map.mpr ⟨raw, hraw, rfl⟩)
    have hmax2 : ∃ rawTx ∈ rep.transactions,
        (env.ParseTransactionFromJson rawTx).BlockTimestamp = pageMax env rep := by
      have := foldr_max_mem (rep.transactions.map
        (fun rawTx => (env.ParseTransactionFromJson rawTx).BlockTimestamp)) (by simpa using hne)
      obtain ⟨raw, hraw, heq⟩ := List.mem_map.mp this
      exact ⟨raw, hraw, heq⟩
    refine ⟨key, pageMax env rep, rfl, hmax1, hmax2, ?_⟩
    rcases pre with _ | ⟨a, pre⟩
    · simp at h
    · simp only [List.cons_append, List.cons.injEq] at h
      obtain ⟨ha, h⟩ := h
      subst ha
      have hlen : (requests (SnapshotEffect.getBlockTimestamp key :: pre)).length
          = 0 + (requests pre).length := by simp [requests]
      rw [hlen] at hrep ⊢
      rcases List.append_eq_append_iff.mp h with ⟨a, h1, h2⟩ | ⟨c, h1, h2⟩
      · exfalso
        exact request_not_mem_of_requests_nil tail hrq r (by rw [h2]; simp)
      · rcases c with _ | ⟨x, c⟩
        · exfalso
          simp only [List.nil_append] at h2
          exact request_not_mem_of_requests_nil tail hrq r (by rw [← h2]; simp)
        · simp only [List.cons_append, List.cons.injEq] at h2
          obtain ⟨hx, h2⟩ := h2
          subst hx
          rcases snapshotLoop_page env key 500 (env.GetBlockTimestamp key) fuel 0 1 0 pre c r rep
            h1 hrep hne with ⟨hs, rest, hrest⟩ | ⟨e, hs, hc, hex⟩
          · left
            refine ⟨hs, rest ++ tail, ?_⟩
            rw [h2, hrest]; simp
          · right
            refine ⟨e, hs, ?_⟩
            rw [h2, hc, htail (by rw [hex]; simp)]
            simp

theorem requests_loop_getElem (env : SnapshotEnv) (key : String) (limit start : Nat) :
    ∀ (fuel calls page upto k : Nat) (r : Request), page < 2 ^ 64 →
      (requests (snapshotLoop env key limit start fuel calls page upto).1)[k]? = some r →
      r = pageRequest key start
        (if upto == 0 then
          firstNonZero (replyTimestamps env calls
            ((requests (snapshotLoop env key limit start fuel calls page upto).1).take k))
         else upto)
        ((page + k) % 2 ^ 64) limit := by
  intro fuel
  induction fuel with
  | zero =>
    intro calls page upto k r _ h
    rw [snapshotLoop_zero] at h
    simp [requests] at h
  | succ fuel ih =>
    intro calls page upto k r hpage h
    have hmod : page % 2 ^ 64 = page := Nat.mod_eq_of_lt hpage
    cases hR : env.RequestRemoteService calls (pageRequest key start upto page limit) with
    | error e =>
      rw [snapshotLoop_error env key limit start fuel calls page upto e hR] at h ⊢
      cases k with
      | zero =>
        simp only [requests, List.getElem?_cons_zero, Option.some.injEq] at h
        subst h
        simp only [List.take_zero, replyTimestamps, firstNonZero, Nat.add_zero, hmod]
        split <;> simp_all
      | succ k => simp [requests] at h
    | ok rep0 =>
      by_cases he : rep0.transactions = []
      · rw [snapshotLoop_empty env key limit start fuel calls page upto rep0 hR he] at h ⊢
        cases k with
        | zero =>
          simp only [requests, List.getElem?_cons_zero, Option.some.injEq] at h
          subst h
          simp only [List.take_zero, replyTimestamps, firstNonZero, Nat.add_zero, hmod]
          split <;> simp_all
        | succ k => simp [requests] at h
      · cases hS : env.SetBlockTimestamp calls key (pageMax env rep0) with
        | some e =>
          rw [snapshotLoop_storeError env key limit start fuel calls page upto rep0 e hR he hS]
            at h ⊢
          cases k with
          | zero =>
            simp only [requests, List.getElem?_cons_zero, Option.some.injEq] at h
            subst h
            simp only [List.take_zero, replyTimestamps, firstNonZero, Nat.add_zero, hmod]
            split <;> simp_all
          | succ k => simp [requests] at h
        | none =>
          rw [snapshotLoop_next env key limit start fuel calls page upto rep0 hR he hS] at h ⊢
          cases k with
          | zero =>
            simp only [requests, List.getElem?_cons_zero, Option.some.injEq] at h
            subst h
            simp only [List.take_zero, replyTimestamps, firstNonZero, Nat.add_zero, hmod]
            split <;> simp_all
          | succ k =>
            simp only [requests, List.getElem?_cons_succ] at h
            have hlt : (page + 1) % 2 ^ 64 < 2 ^ 64 := Nat.mod_lt _ (by norm_num)
            have := ih (calls + 1) ((page + 1) % 2 ^ 64)
              (if upto == 0 then rep0.block_timestamp else upto) k r hlt h
            rw [this]
            simp only [requests, List.take_succ_cons, replyTimestamps, hR, firstNonZero]
            have hp : ((page + 1) % 2 ^ 64 + k) % 2 ^ 64 = (page + (k + 1)) % 2 ^ 64 := by
              omega
            rw [hp]
            by_cases hu : upto = 0
            · subst hu
              simp only [beq_self_eq_true, ite_true]
            · have hu2 : (upto == 0) = false := by simpa using hu
              simp only [hu2, Bool.false_eq_true, ite_false]

theorem firstNonZero_cons (t : Nat) (ts : List Nat) (h : t ≠ 0) : firstNonZero (t :: ts) = t := by
  simp [firstNonZero, h]

/-- Claim C10, as amended (backfill window).  In every run of a snapshot worker the
request number `k` (counted from 0) carries the command `snapshot_get`, the
topic, `from` = the topic's persisted checkpoint, `limit` = 500, `page` = `k + 1`
(on `uint64`), and `to` = the first non-zero batch timestamp among the replies
to the requests before it, 0 when there is none.  So the first request carries
`to` = 0 and `page` = 1, and once the first page's reply has a non-zero batch
timestamp every later request carries that timestamp as `to`. -/
theorem snapshot_request_window (env : SnapshotEnv) (smartcontractKeys : List String)
    (i port fuel k : Nat) (r : Request)
    (h : (requests (snapshot env smartcontractKeys i port fuel).1)[k]? = some r) :
    ∃ key, smartcontractKeys[i]? = some key ∧
      r.Command = "snapshot_get" ∧ r.smartcontract_key = key ∧
      r.block_timestamp_from = env.GetBlockTimestamp key ∧ r.limit = 500 ∧
      r.page = (k + 1) % 2 ^ 64 ∧
      r.block_timestamp_to = firstNonZero (replyTimestamps env 0
        ((requests (snapshot env smartcontractKeys i port fuel).1).take k)) ∧
      (k = 0 → r.block_timestamp_to = 0 ∧ r.page = 1) ∧
      (∀ t ts, replyTimestamps env 0
          ((requests (snapshot env smartcontractKeys i port fuel).1).take k) = t :: ts →
        t ≠ 0 → r.block_timestamp_to = t) := by
  cases hk : smartcontractKeys[i]? with
  | none => simp [snapshot, hk, requests] at h
  | some key =>
    obtain ⟨tail, ht, hrq, _, _, _⟩ := snapshot_effects env smartcontractKeys i port fuel key hk
    have hreq : requests (snapshot env smartcontractKeys i port fuel).1
        = requests (snapshotLoop env key 500 (env.GetBlockTimestamp key) fuel 0 1 0).1 := by
      rw [ht]
      have : SnapshotEffect.getBlockTimestamp key
          :: (snapshotLoop env key 500 (env.GetBlockTimestamp key) fuel 0 1 0).1 ++ tail
          = [SnapshotEffect.getBlockTimestamp key]
            ++ ((snapshotLoop env key 500 (env.GetBlockTimestamp key) fuel 0 1 0).1 ++ tail) := by
        simp
      rw [this, requests_append, requests_append, hrq]
      simp [requests]
    rw [hreq] at h ⊢
    have hr := requests_loop_getElem env key 500 (env.GetBlockTimestamp key) fuel 0 1 0 k r
      (by norm_num) h
    simp only [beq_self_eq_true, ite_true] at hr
    have hto : r.block_timestamp_to = firstNonZero (replyTimestamps env 0
        ((requests (snapshotLoop env key 500 (env.GetBlockTimestamp key) fuel 0 1 0).1).take k)) := by
      rw [hr]; rfl
    refine ⟨key, rfl, by rw [hr]; rfl, by rw [hr]; rfl, by rw [hr]; rfl, by rw [hr]; rfl, ?_,
      hto, ?_, ?_⟩
    · rw [hr]; simp only [pageRequest]; omega
    · intro hk0
      subst hk0
      refine ⟨?_, ?_⟩
      · rw [hto]; simp [replyTimestamps, firstNonZero]
      · rw [hr]; simp [pageRequest]
    · intro t ts hts htz
      rw [hto, hts, firstNonZero_cons t ts htz]

theorem persisted_loop_chain (env : SnapshotEnv) (key : String) (limit start : Nat)
    (hmono : ∀ n r r1 rep rep1, env.RequestRemoteService n r = .ok rep →
      env.RequestRemoteService (n + 1) r1 = .ok rep1 → rep1.transactions ≠ [] →
      pageMax env rep ≤ pageMax env rep1) :
    ∀ (fuel calls page upto prev : Nat),
      (∀ r rep, env.RequestRemoteService calls r = .ok rep → rep.transactions ≠ [] →
        prev ≤ pageMax env rep) →
      List.Chain (· ≤ ·) prev
        (persisted (snapshotLoop env key limit start fuel calls page upto).1) := by
  intro fuel
  induction fuel with
  | zero =>
    intro calls page upto prev _
    rw [snapshotLoop_zero]
    exact List.Chain.nil
  | succ fuel ih =>
    intro calls page upto prev hprev
    cases hR : env.RequestRemoteService calls (pageRequest key start upto page limit) with
    | error e =>
      rw [snapshotLoop_error env key limit start fuel calls page upto e hR]
      exact List.Chain.nil
    | ok rep0 =>
      by_cases he : rep0.transactions = []
      · rw [snapshotLoop_empty env key limit start fuel calls page upto rep0 hR he]
        exact List.Chain.nil
      · cases hS : env.SetBlockTimestamp calls key (pageMax env rep0) with
        | some e =>
          rw [snapshotLoop_storeError env key limit start fuel calls page upto rep0 e hR he hS]
          exact List.Chain.nil
        | none =>
          rw [snapshotLoop_next env key limit start fuel calls page upto rep0 hR he hS]
          simp only [persisted]
          refine List.Chain.cons (hprev _ rep0 hR he) ?_
          exact ih (calls + 1) _ _ (pageMax env rep0)
            (fun r rep hr hne => hmono calls _ r rep0 rep hR hr hne)

/-- Claim C3, as amended (checkpoint monotonicity).  For every topic, starting
checkpoint and sequence of backfill pages in which the maximum block timestamp
of every non-empty page is at least that of the page before it, and that of the
first page is at least the starting checkpoint: the checkpoints persisted by
the Snapshot Worker, from the checkpoint it started from on, never decrease. -/
theorem snapshot_checkpoint_monotone (env : SnapshotEnv) (smartcontractKeys : List String)
    (i port fuel : Nat) (key : String) (hk : smartcontractKeys[i]? = some key)
    (hfirst : ∀ r rep, env.RequestRemoteService 0 r = .ok rep → rep.transactions ≠ [] →
      env.GetBlockTimestamp key ≤ pageMax env rep)
    (hmono : ∀ n r r1 rep rep1, env.RequestRemoteService n r = .ok rep →
      env.RequestRemoteService (n + 1) r1 = .ok rep1 → rep1.transactions ≠ [] →
      pageMax env rep ≤ pageMax env rep1) :
    List.Chain (· ≤ ·) (env.GetBlockTimestamp key)
      (persisted (snapshot env smartcontractKeys i port fuel).1) := by
  obtain ⟨tail, ht, _, _, hps, _⟩ := snapshot_effects env smartcontractKeys i port fuel key hk
  have hp : persisted (snapshot env smartcontractKeys i port fuel).1
      = persisted (snapshotLoop env key 500 (env.GetBlockTimestamp key) fuel 0 1 0).1 := by
    rw [ht]
    have : SnapshotEffect.getBlockTimestamp key
        :: (snapshotLoop env key 500 (env.GetBlockTimestamp key) fuel 0 1 0).1 ++ tail
        = [SnapshotEffect.getBlockTimestamp key]
          ++ ((snapshotLoop env key 500 (env.GetBlockTimestamp key) fuel 0 1 0).1 ++ tail) := by
      simp
    rw [this, persisted_append, persisted_append, hps]
    simp [persisted]
  rw [hp]
  exact persisted_loop_chain env key 500 (env.GetBlockTimestamp key) hmono fuel 0 1 0 _ hfirst

theorem snapshotLoop_paged (env : SnapshotEnv) (key : String) (start total : Nat)
    (source : Nat → SnapshotReply)
    (hsrc : ∀ n r, env.RequestRemoteService n r = .ok (source r.page))
    (hpages : ∀ p, 1 ≤ p → ((source p).transactions ≠ [] ↔ (p - 1) * 500 < total))
    (hstore : ∀ n k v, env.SetBlockTimestamp n k v = none)
    (hsmall : (total + 499) / 500 + 1 < 2 ^ 64) :
    ∀ (j page calls upto fuel : Nat), 1 ≤ page → page + j = (total + 499) / 500 + 1 →
      j + 1 ≤ fuel →
      (snapshotLoop env key 500 start fuel calls page upto).2 = .broke ∧
      (requests (snapshotLoop env key 500 start fuel calls page upto).1).map (fun r => r.page)
        = List.range' page (j + 1) ∧
      forwarded (snapshotLoop env key 500 start fuel calls page upto).1
        = (List.range' page j).map (fun p => batchOf env key (source p)) ∧
      (snapshotLoop env key 500 start fuel calls page upto).1.count (.sendMessage "") = 0 := by
  intro j
  induction j with
  | zero =>
    intro page calls upto fuel h1 hj hf
    obtain ⟨f, rfl⟩ : ∃ f, fuel = f + 1 := ⟨fuel - 1, by omega⟩
    have hR := hsrc calls (pageRequest key start upto page 500)
    have he : (source page).transactions = [] := by
      by_contra hne
      have := (hpages page h1).mp hne
      omega
    have hR1 : env.RequestRemoteService calls (pageRequest key start upto page 500)
        = .ok (source page) := hR
    rw [snapshotLoop_empty env key 500 start f calls page upto (source page) hR1 he]
    simp [requests, forwarded, pageRequest]
  | succ j ih =>
    intro page calls upto fuel h1 hj hf
    obtain ⟨f, rfl⟩ : ∃ f, fuel = f + 1 := ⟨fuel - 1, by omega⟩
    have hR1 : env.RequestRemoteService calls (pageRequest key start upto page 500)
        = .ok (source page) := hsrc calls (pageRequest key start upto page 500)
    have hne : (source page).transactions ≠ [] := by
      apply (hpages page h1).mpr
      omega
    have hS := hstore calls key (pageMax env (source page))
    rw [snapshotLoop_next env key 500 start f calls page upto (source page) hR1 hne hS]
    have hp : (page + 1) % 2 ^ 64 = page + 1 := by
      apply Nat.mod_eq_of_lt
      omega
    rw [hp]
    obtain ⟨i1, i2, i3, i4⟩ := ih (page + 1) (calls + 1)
      (if upto == 0 then (source page).block_timestamp else upto) f (by omega) (by omega)
      (by omega)
    refine ⟨i1, ?_, ?_, ?_⟩
    · simp only [requests, List.map_cons, i2]
      rw [List.range'_succ page (j + 1)]
      rfl
    · simp only [forwarded, i3]
      rw [List.range'_succ page j]
      rfl
    · simpa [List.count_cons] using i4

/-- Claim C5 (pagination termination).  Take a backfill source that holds `total`
transactions (a `uint64` count) and answers every request with the page the
request asks for, page `p` being non-empty exactly when `(p - 1) * 500 < total`,
a store whose writes succeed and a completion socket that opens.  Then a
snapshot worker given at least `ceil(total/500) + 1` iterations returns; it has
issued the requests for the pages `1, 2, ..., ceil(total/500) + 1`, in this
order and no other; it has forwarded the Event Batches of the pages
`1, ..., ceil(total/500)`, in this order and no other; and it has sent one
completion notice, as its last action before closing the socket. -/
theorem snapshot_pagination_terminates (env : SnapshotEnv) (smartcontractKeys : List String)
    (i port : Nat) (key : String) (total : Nat) (source : Nat → SnapshotReply) (fuel : Nat)
    (hk : smartcontractKeys[i]? = some key)
    (htotal : total < 2 ^ 64)
    (hsrc : ∀ n r, env.RequestRemoteService n r = .ok (source r.page))
    (hpages : ∀ p, 1 ≤ p → ((source p).transactions ≠ [] ↔ (p - 1) * 500 < total))
    (hstore : ∀ n k v, env.SetBlockTimestamp n k v = none)
    (hsock : env.TcpPushSocketOrPanic port = none)
    (hfuel : (total + 499) / 500 + 1 ≤ fuel) :
    (snapshot env smartcontractKeys i port fuel).2 = .broke ∧
    (requests (snapshot env smartcontractKeys i port fuel).1).map (fun r => r.page)
      = List.range' 1 ((total + 499) / 500 + 1) ∧
    forwarded (snapshot env smartcontractKeys i port fuel).1
      = (List.range' 1 ((total + 499) / 500)).map (fun p => batchOf env key (source p)) ∧
    notices (snapshot env smartcontractKeys i port fuel).1 = 1 ∧
    ∃ body, (snapshot env smartcontractKeys i port fuel).1
        = body ++ [SnapshotEffect.pushSocket port, SnapshotEffect.sendMessage "",
            SnapshotEffect.close] ∧
      notices body = 0 := by
  have hsmall : (total + 499) / 500 + 1 < 2 ^ 64 := by
    have f64 : (2 : Nat) ^ 64 = 18446744073709551616 := by norm_num
    rw [f64] at htotal ⊢
    omega
  obtain ⟨l1, l2, l3, l4⟩ := snapshotLoop_paged env key (env.GetBlockTimestamp key) total source
    hsrc hpages hstore hsmall ((total + 499) / 500) 1 0 0 fuel (le_refl 1) (by omega) (by omega)
  unfold snapshot notices
  simp only [hk]
  rcases hl : snapshotLoop env key 500 (env.GetBlockTimestamp key) fuel 0 1 0 with ⟨effects, ex⟩
  rw [hl] at l1 l2 l3 l4
  simp only at l1 l2 l3 l4
  subst l1
  simp only [hsock]
  have e1 : SnapshotEffect.getBlockTimestamp key :: effects
        ++ [SnapshotEffect.pushSocket port, SnapshotEffect.sendMessage "", SnapshotEffect.close]
      = [SnapshotEffect.getBlockTimestamp key] ++ (effects
        ++ [SnapshotEffect.pushSocket port, SnapshotEffect.sendMessage "", SnapshotEffect.close]) := by
    simp
  refine ⟨trivial, ?_, ?_, ?_, ?_⟩
  · rw [e1, requests_append, requests_append, l2.symm]
    simp [requests]
  · rw [e1, forwarded_append, forwarded_append, l3.symm]
    simp [forwarded]
  · simp [List.count_cons, List.count_append, l4]
  · refine ⟨SnapshotEffect.getBlockTimestamp key :: effects, by simp, ?_⟩
    simp [List.count_cons, l4]

/-! ## Theorems: `loop` -/

theorem recvLoop_parsed (ParseBroadcast : List String → Except String Broadcast)
    (Address : String) (msgs : List (List String × Broadcast))
    (h : ∀ m ∈ msgs, m.1 ≠ [] ∧ ParseBroadcast m.1 = .ok m.2) :
    delivered (recvLoop ParseBroadcast Address (msgs.map (fun m => (m.1, none)))).1
      = uptoFirstBad (msgs.map (fun m => m.2)) ∧
    ((recvLoop ParseBroadcast Address (msgs.map (fun m => (m.1, none)))).2 = true ↔
      ∃ b ∈ msgs.map (fun m => m.2), b.IsOK = false) ∧
    receives (recvLoop ParseBroadcast Address (msgs.map (fun m => (m.1, none)))).1
      = (uptoFirstBad (msgs.map (fun m => m.2))).length := by
  induction msgs with
  | nil => simp [recvLoop, delivered, uptoFirstBad, receives]
  | cons m msgs ih =>
    obtain ⟨hne, hp⟩ := h m (List.mem_cons_self _ _)
    obtain ⟨ih1, ih2, ih3⟩ := ih (fun x hx => h x (List.mem_cons_of_mem _ hx))
    have hlen : ¬ (m.1.length == 0) = true := by
      simpa using hne
    by_cases hok : m.2.IsOK = true
    · simp only [List.map_cons, recvLoop, hlen, hp, hok, uptoFirstBad, delivered, receives,
        Bool.not_true, Bool.false_eq_true, ite_false, ite_true, List.nil_append, ih1, ih2, ih3,
        List.length_cons, List.mem_cons, exists_eq_or_imp]
      refine ⟨trivial, ⟨fun hx => Or.inr hx, fun hx => ?_⟩, trivial⟩
      rcases hx with hx | hx
      · cases hx
      · exact hx
    · have hok2 : m.2.IsOK = false := by simpa using hok
      simp only [List.map_cons, recvLoop, hlen, hp, hok2, uptoFirstBad, delivered, receives,
        Bool.not_false, Bool.false_eq_true, ite_false, ite_true, List.nil_append,
        List.length_cons, List.mem_cons, exists_eq_or_imp]
      exact ⟨trivial, ⟨fun _ => Or.inl trivial, fun _ => trivial⟩, rfl⟩

/-- Claim C6 (live-loop termination on bad status).  For every sequence of messages
that are received without error, are not empty and parse into broadcasts: the
Live Loop pushes to the event-output channel the broadcasts up to and including
the first one whose status is not "OK", in order, and nothing else; it has left
its loop exactly when there is such a broadcast; and it has received no message
beyond that one. -/
theorem loop_stops_after_first_bad_status
    (ParseBroadcast : List String → Except String Broadcast) (Address : String)
    (msgs : List (List String × Broadcast))
    (h : ∀ m ∈ msgs, m.1 ≠ [] ∧ ParseBroadcast m.1 = .ok m.2) :
    delivered (loop ParseBroadcast Address (msgs.map (fun m => (m.1, none)))).1
      = uptoFirstBad (msgs.map (fun m => m.2)) ∧
    ((loop ParseBroadcast Address (msgs.map (fun m => (m.1, none)))).2 = true ↔
      ∃ b ∈ msgs.map (fun m => m.2), b.IsOK = false) ∧
    receives (loop ParseBroadcast Address (msgs.map (fun m => (m.1, none)))).1
      = (uptoFirstBad (msgs.map (fun m => m.2))).length := by
  obtain ⟨h1, h2, h3⟩ := recvLoop_parsed ParseBroadcast Address msgs h
  exact ⟨h1, h2, h3⟩

/-- When `RecvMessage` returns an error together with an empty message, the
Live Loop prints the error, falls through to the test `len(msg_raw) == 0` and
leaves its loop, whatever the transport would deliver next. -/
theorem loop_exits_on_empty_error
    (ParseBroadcast : List String → Except String Broadcast) (Address : String)
    (e : String) (later : List (List String × Option String)) :
    loop ParseBroadcast Address (([], some e) :: later)
      = ([LoopEffect.afterFunc 10, LoopEffect.goHeartbeat, LoopEffect.recvMessage [] (some e),
          LoopEffect.println "error in sub receive", LoopEffect.println e], true) := by
  simp [loop, recvLoop]

/-! ## Theorems: `heartbeat` and the watchdog timer -/

theorem badIndex_le (replies : List Reply) : badIndex replies ≤ replies.length := by
  induction replies with
  | nil => simp [badIndex]
  | cons r replies ih =>
    simp only [badIndex, List.length_cons]
    split <;> omega

/-- Claim C8 (heartbeat failure surfaces).  For every sequence of probe replies, the
probe loop pushes to the health-output channel the first reply that is not OK
and nothing else (nothing when all are OK); the probes it has made are the
replies up to and including that one, so their number is the index of the first
reply that is not OK; and it has left its loop exactly when there is one. -/
theorem heartbeat_first_failure (replies : List Reply) :
    signals (heartbeat replies).1 = (firstBad replies).toList ∧
    probes (heartbeat replies).1 = replies.take (badIndex replies) ∧
    (probes (heartbeat replies).1).length = badIndex replies ∧
    ((heartbeat replies).2 = true ↔ firstBad replies ≠ none) := by
  induction replies with
  | nil => simp [heartbeat, signals, probes, firstBad, badIndex]
  | cons r replies ih =>
    obtain ⟨ih1, ih2, ih3, ih4⟩ := ih
    by_cases hok : r.IsOK = true
    · simp only [heartbeat, hok, Bool.not_true, Bool.false_eq_true, ite_false, signals, probes,
        firstBad, badIndex, ite_true, ih1, ih2, ih3, ih4, List.take_succ_cons, List.length_cons]
      simp [badIndex_le]
    · have hok2 : r.IsOK = false := by simpa using hok
      simp [heartbeat, hok2, signals, probes, firstBad, badIndex]

theorem sent_append (a b : List HealthEffect) : sent (a ++ b) = sent a ++ sent b := by
  induction a with
  | nil => rfl
  | cons x a ih => cases x <;> simp [sent, ih]

theorem afterSend_append_of_sent_nil (a b : List HealthEffect) (h : sent a = []) :
    afterSend (a ++ b) = afterSend b := by
  induction a with
  | nil => rfl
  | cons x a ih => cases x <;> simp_all [sent, afterSend]

theorem afterSend_append_of_sent (a b : List HealthEffect) (h : sent a ≠ []) :
    afterSend (a ++ b) = afterSend a ++ b := by
  induction a with
  | nil => exact absurd rfl h
  | cons x a ih => cases x <;> simp_all [sent, afterSend]

theorem afterSend_of_sent_nil (a : List HealthEffect) (h : sent a = []) : afterSend a = [] := by
  induction a with
  | nil => rfl
  | cons x a ih => cases x <;> simp_all [sent, afterSend]

/-- What holds of the monitor in every reachable state: before the probe loop
has returned it has pushed nothing; after, it has pushed one signal, and what
followed is at most one expiry of the timer, none if the timer is still armed. -/
def Monitor.Inv (m : Monitor) : Prop :=
  (m.pc ≠ .exited → sent m.log = []) ∧
  (m.pc = .exited → (sent m.log).length = 1 ∧
    (∀ e ∈ afterSend m.log, ∃ r, e = HealthEffect.timeout r) ∧
    (afterSend m.log).length + (if m.armed then 1 else 0) ≤ 1)

theorem Monitor.inv_init : Monitor.init.Inv := by
  refine ⟨fun _ => rfl, fun h => ?_⟩
  cases h

theorem Monitor.inv_step (m m1 : Monitor) (a : Action) (hinv : m.Inv)
    (h : m.step a = some m1) : m1.Inv := by
  obtain ⟨hrun, hex⟩ := hinv
  cases a with
  | fire =>
    unfold Monitor.step at h
    by_cases harm : m.armed = true
    · simp only [harm, ite_true, Option.some.injEq] at h
      subst h
      refine ⟨fun hpc => ?_, fun hpc => ?_⟩
      · simp only [sent_append, hrun hpc]; rfl
      · obtain ⟨h1, h2, h3⟩ := hex hpc
        have hne : sent m.log ≠ [] := by
          intro hnil; rw [hnil] at h1; cases h1
        simp only [harm, ite_true] at h3
        have h0 : afterSend m.log = [] := List.length_eq_zero.mp (by omega)
        simp only [sent_append, afterSend_append_of_sent _ _ hne, h0]
        refine ⟨by simpa [sent] using h1, ?_, by simp⟩
        intro e he
        simp only [List.nil_append, List.mem_singleton] at he
        exact ⟨_, he⟩
    · simp [harm] at h
  | hb r =>
    unfold Monitor.step at h
    cases hpc : m.pc with
    | atReset =>
      simp only [hpc, Option.some.injEq] at h
      subst h
      refine ⟨fun _ => ?_, fun hc => by cases hc⟩
      simp only [sent_append, hrun (by rw [hpc]; simp)]; rfl
    | atProbe =>
      simp only [hpc] at h
      by_cases hok : r.IsOK = true
      · simp only [hok, Bool.not_true, Bool.false_eq_true, ite_false, Option.some.injEq] at h
        subst h
        refine ⟨fun _ => ?_, fun hc => by cases hc⟩
        simp only [sent_append, hrun (by rw [hpc]; simp)]; rfl
      · have hok2 : r.IsOK = false := by simpa using hok
        simp only [hok2, Bool.not_false, ite_true, Option.some.injEq] at h
        subst h
        have hnil := hrun (by rw [hpc]; simp)
        refine ⟨fun hc => absurd rfl hc, fun _ => ?_⟩
        simp only [sent_append, hnil, afterSend_append_of_sent_nil _ _ hnil]
        refine ⟨by simp [sent], ?_, ?_⟩
        · intro e he
          simp [afterSend] at he
        · simp only [afterSend, List.length_nil]
          split <;> omega
    | atSleep =>
      simp only [hpc, Option.some.injEq] at h
      subst h
      refine ⟨fun _ => ?_, fun hc => by cases hc⟩
      simp only [sent_append, hrun (by rw [hpc]; simp)]; rfl
    | exited => simp [hpc] at h

theorem Monitor.inv_run (schedule : List Action) :
    ∀ (m m1 : Monitor), m.Inv → m.run schedule = some m1 → m1.Inv := by
  induction schedule with
  | nil =>
    intro m m1 hinv h
    simp only [Monitor.run, Option.some.injEq] at h
    subst h; exact hinv
  | cons a schedule ih =>
    intro m m1 hinv h
    unfold Monitor.run at h
    cases hs : m.step a with
    | none => simp [hs] at h
    | some m2 =>
      simp only [hs] at h
      exact ih m2 m1 (Monitor.inv_step m m2 a hinv hs) h

/-- With a timer that never expires, the monitor does what the method
`heartbeat` does on the same replies. -/
theorem Monitor.run_probeSchedule (replies : List Reply) :
    ∀ m : Monitor, m.pc = .atReset →
      m.run (probeSchedule replies)
        = some { pc := if (heartbeat replies).2 then .exited else .atProbe,
                 armed := true,
                 log := m.log ++ (heartbeat replies).1 } := by
  induction replies with
  | nil =>
    intro m hm
    simp [probeSchedule, Monitor.run, Monitor.step, hm, heartbeat]
  | cons r replies ih =>
    intro m hm
    by_cases hok : r.IsOK = true
    · have := ih { pc := .atReset, armed := true,
                   log := m.log ++ [.timerReset 10] ++ [.probe r] ++ [.sleep 2] } rfl
      simp only [probeSchedule, hok, Bool.not_true, Bool.false_eq_true, ite_false, Monitor.run,
        Monitor.step, hm, heartbeat, this]
      simp
    · have hok2 : r.IsOK = false := by simpa using hok
      simp [probeSchedule, hok2, Monitor.run, Monitor.step, hm, heartbeat]

/-- Claim C7, as amended (signals of the Heartbeat Monitor).  In every run of the
monitor, that is for every interleaving of the steps of the probe loop with
expiries of the watchdog timer: the probe loop pushes at most one failure
signal, and it has pushed one exactly when it has returned; after that push no
probe is made, the timer is not reset and the probe loop pushes nothing more:
all that follows is at most one further signal, pushed by the timer, which the
probe loop leaves armed. -/
theorem monitor_probe_loop_terminal (schedule : List Action) (m : Monitor)
    (h : Monitor.run Monitor.init schedule = some m) :
    (sent m.log).length ≤ 1 ∧
    (m.pc = .exited ↔ (sent m.log).length = 1) ∧
    (∀ e ∈ afterSend m.log, ∃ r, e = HealthEffect.timeout r) ∧
    (afterSend m.log).length ≤ 1 := by
  obtain ⟨hrun, hex⟩ := Monitor.inv_run schedule Monitor.init m Monitor.inv_init h
  by_cases hpc : m.pc = .exited
  · obtain ⟨h1, h2, h3⟩ := hex hpc
    refine ⟨by omega, ⟨fun _ => h1, fun _ => hpc⟩, h2, by omega⟩
  · have hnil := hrun hpc
    have hnil2 := afterSend_of_sent_nil _ hnil
    refine ⟨by simp [hnil], ⟨fun hc => absurd hc hpc, fun hc => ?_⟩, ?_, by simp [hnil2]⟩
    · rw [hnil] at hc; cases hc
    · intro e he
      rw [hnil2] at he
      cases he

/-! ## Evaluations on concrete collaborators -/

/-- Claim C1, on a concrete input: with two topics and a gateway that is up, the two
subscribe calls stand ahead of the launch of the first snapshot worker; with a
gateway that refuses the second subscribe call, `Start` returns an error and
launches nothing. -/
theorem Start_subscribe_before_backfill_witness :
    ((Start gatewayUp ["a", "b"]).1
        = [StartEffect.newSub, StartEffect.setSubscribe "a" none,
            StartEffect.setSubscribe "b" none, StartEffect.remoteBroadcastPort,
            StartEffect.goRunSink 4001 2]
          ++ StartEffect.goSnapshot 0 4001 :: [StartEffect.goSnapshot 1 4001] ∧
      [StartEffect.newSub, StartEffect.setSubscribe "a" none,
            StartEffect.setSubscribe "b" none, StartEffect.remoteBroadcastPort,
            StartEffect.goRunSink 4001 2].filterMap StartEffect.subscribed = ["a", "b"]) ∧
    ((∃ k e, StartEffect.setSubscribe k (some e) ∈ (Start gatewayRefusing ["a", "b"]).1) ∧
      (Start gatewayRefusing ["a", "b"]).2 ≠ none ∧
      ∀ x ∈ (Start gatewayRefusing ["a", "b"]).1, x.isLaunch = false) :=
  ⟨⟨by decide,
    (Start_subscribe_before_backfill gatewayUp ["a", "b"]).1
      [StartEffect.newSub, StartEffect.setSubscribe "a" none,
        StartEffect.setSubscribe "b" none, StartEffect.remoteBroadcastPort,
        StartEffect.goRunSink 4001 2]
      [StartEffect.goSnapshot 1 4001] 0 4001 (by decide)⟩,
   ⟨⟨"b", "refused", by decide⟩,
    (Start_subscribe_before_backfill gatewayRefusing ["a", "b"]).2 ⟨"b", "refused", by decide⟩⟩⟩

/-- Claim C2, on a concrete input: two topics; the notices arrive around a receive
error, and a third notice is sent after the second. -/
theorem runSink_exactly_once_witness :
    1 ≤ 2 ∧ 2 < 2 ^ 63 ∧
    releases (runSink none 4001 ((2 : Nat) : Int) [none, some "eintr", none, none]) ≤ 1 ∧
    (releases (runSink none 4001 ((2 : Nat) : Int) [none, some "eintr", none, none]) = 1 ↔
      completions (runSink none 4001 ((2 : Nat) : Int) [none, some "eintr", none, none]) = 2) ∧
    completions (runSink none 4001 ((2 : Nat) : Int) [none, some "eintr", none, none])
      = min 2 (successes [none, some "eintr", none, none]) ∧
    (releases (runSink none 4001 ((2 : Nat) : Int) [none, some "eintr", none, none]) = 1 ↔
      2 ≤ successes [none, some "eintr", none, none]) :=
  ⟨by decide, by decide,
    runSink_exactly_once 4001 2 (by decide) (by decide) [none, some "eintr", none, none]⟩

/-- Claim C3, counterexample: the remote service returns a page whose transactions
are older than those of the page before; the worker persists 10 and then 5. -/
theorem snapshot_checkpoint_decreases :
    persisted (snapshot (pagesEnv 1 decreasingPages) ["k"] 0 4001 3).1 = [10, 5] ∧
    ¬ List.Chain (· ≤ ·) ((pagesEnv 1 decreasingPages).GetBlockTimestamp "k")
        (persisted (snapshot (pagesEnv 1 decreasingPages) ["k"] 0 4001 3).1) := by
  have h : persisted (snapshot (pagesEnv 1 decreasingPages) ["k"] 0 4001 3).1 = [10, 5] := by
    decide
  refine ⟨h, ?_⟩
  rw [h]
  intro hc
  have := (List.chain_cons.mp (List.chain_cons.mp hc).2).1
  exact absurd this (by decide)

/-- Claim C3, as amended, on a concrete input: two pages served oldest first, from
the checkpoint 1; the worker persists 9 and then 10. -/
theorem snapshot_checkpoint_monotone_witness :
    (["k"] : List String)[0]? = some "k" ∧
    (∀ r rep, (pagesEnv 1 increasingPages).RequestRemoteService 0 r = .ok rep →
      rep.transactions ≠ [] →
      (pagesEnv 1 increasingPages).GetBlockTimestamp "k" ≤ pageMax (pagesEnv 1 increasingPages) rep) ∧
    (∀ n r r1 rep rep1, (pagesEnv 1 increasingPages).RequestRemoteService n r = .ok rep →
      (pagesEnv 1 increasingPages).RequestRemoteService (n + 1) r1 = .ok rep1 →
      rep1.transactions ≠ [] →
      pageMax (pagesEnv 1 increasingPages) rep ≤ pageMax (pagesEnv 1 increasingPages) rep1) ∧
    List.Chain (· ≤ ·) ((pagesEnv 1 increasingPages).GetBlockTimestamp "k")
      (persisted (snapshot (pagesEnv 1 increasingPages) ["k"] 0 4001 3).1) ∧
    persisted (snapshot (pagesEnv 1 increasingPages) ["k"] 0 4001 3).1 = [9, 10] := by
  have h1 : (["k"] : List String)[0]? = some "k" := rfl
  have h2 : ∀ r rep, (pagesEnv 1 increasingPages).RequestRemoteService 0 r = .ok rep →
      rep.transactions ≠ [] →
      (pagesEnv 1 increasingPages).GetBlockTimestamp "k"
        ≤ pageMax (pagesEnv 1 increasingPages) rep := by
    intro r rep h _
    simp only [pagesEnv, increasingPages, List.getD_cons_zero, Except.ok.injEq] at h
    subst h
    decide
  have h3 : ∀ n r r1 rep rep1, (pagesEnv 1 increasingPages).RequestRemoteService n r = .ok rep →
      (pagesEnv 1 increasingPages).RequestRemoteService (n + 1) r1 = .ok rep1 →
      rep1.transactions ≠ [] →
      pageMax (pagesEnv 1 increasingPages) rep ≤ pageMax (pagesEnv 1 increasingPages) rep1 := by
    intro n r r1 rep rep1 ha hb hne
    rcases n with _ | n
    · simp only [pagesEnv, increasingPages, List.getD_cons_zero, Except.ok.injEq] at ha
      simp only [pagesEnv, increasingPages, zero_add, List.getD_cons_succ, List.getD_cons_zero,
        Except.ok.injEq] at hb
      subst ha hb
      decide
    · simp only [pagesEnv, increasingPages, List.getD_cons_succ, List.getD_nil,
        Except.ok.injEq] at hb
      subst hb
      exact absurd rfl hne
  exact ⟨h1, h2, h3,
    snapshot_checkpoint_monotone (pagesEnv 1 increasingPages) ["k"] 0 4001 3 "k" h1 h2 h3,
    by decide⟩

/-- Claim C4, on a concrete input: the first page holds transactions with the block
timestamps 5, 9 and 7; the worker writes 9 to the store and then pushes the
page. -/
theorem snapshot_persists_page_maximum_witness :
    (snapshot (pagesEnv 1 increasingPages) ["k"] 0 4001 3).1
      = [SnapshotEffect.getBlockTimestamp "k"]
        ++ SnapshotEffect.request (pageRequest "k" 1 0 1 500)
        :: (snapshot (pagesEnv 1 increasingPages) ["k"] 0 4001 3).1.drop 2 ∧
    (pagesEnv 1 increasingPages).RequestRemoteService
        (requests [SnapshotEffect.getBlockTimestamp "k"]).length (pageRequest "k" 1 0 1 500)
      = .ok { transactions := [txAt 5, txAt 9, txAt 7], logs := [], block_timestamp := 20 } ∧
    ([txAt 5, txAt 9, txAt 7] : List RawJson) ≠ [] ∧
    (snapshot (pagesEnv 1 increasingPages) ["k"] 0 4001 3).1.drop 2
      = SnapshotEffect.setBlockTimestamp "k" 9 none
        :: SnapshotEffect.broadcast (batchOf (pagesEnv 1 increasingPages) "k"
            { transactions := [txAt 5, txAt 9, txAt 7], logs := [], block_timestamp := 20 })
        :: (snapshot (pagesEnv 1 increasingPages) ["k"] 0 4001 3).1.drop 4 ∧
    ∃ key v, (["k"] : List String)[0]? = some key ∧
      (∀ rawTx ∈ ([txAt 5, txAt 9, txAt 7] : List RawJson),
        ((pagesEnv 1 increasingPages).ParseTransactionFromJson rawTx).BlockTimestamp ≤ v) ∧
      (∃ rawTx ∈ ([txAt 5, txAt 9, txAt 7] : List RawJson),
        ((pagesEnv 1 increasingPages).ParseTransactionFromJson rawTx).BlockTimestamp = v) ∧
      (((pagesEnv 1 increasingPages).SetBlockTimestamp
            (requests [SnapshotEffect.getBlockTimestamp "k"]).length key v = none ∧
          ∃ rest, (snapshot (pagesEnv 1 increasingPages) ["k"] 0 4001 3).1.drop 2
            = SnapshotEffect.setBlockTimestamp key v none
              :: SnapshotEffect.broadcast (batchOf (pagesEnv 1 increasingPages) key
                  { transactions := [txAt 5, txAt 9, txAt 7], logs := [], block_timestamp := 20 })
              :: rest) ∨
        (∃ e, (pagesEnv 1 increasingPages).SetBlockTimestamp
            (requests [SnapshotEffect.getBlockTimestamp "k"]).length key v = some e ∧
          (snapshot (pagesEnv 1 increasingPages) ["k"] 0 4001 3).1.drop 2
            = [SnapshotEffect.setBlockTimestamp key v (some e), SnapshotEffect.panic e])) := by
  have h1 : (snapshot (pagesEnv 1 increasingPages) ["k"] 0 4001 3).1
      = [SnapshotEffect.getBlockTimestamp "k"]
        ++ SnapshotEffect.request (pageRequest "k" 1 0 1 500)
        :: (snapshot (pagesEnv 1 increasingPages) ["k"] 0 4001 3).1.drop 2 := by decide
  have h2 : (pagesEnv 1 increasingPages).RequestRemoteService
        (requests [SnapshotEffect.getBlockTimestamp "k"]).length (pageRequest "k" 1 0 1 500)
      = .ok { transactions := [txAt 5, txAt 9, txAt 7], logs := [], block_timestamp := 20 } := rfl
  have h3 : ([txAt 5, txAt 9, txAt 7] : List RawJson) ≠ [] := by decide
  exact ⟨h1, h2, h3, by decide,
    snapshot_persists_page_maximum (pagesEnv 1 increasingPages) ["k"] 0 4001 3
      [SnapshotEffect.getBlockTimestamp "k"] _ (pageRequest "k" 1 0 1 500) _ h1 h2 h3⟩

/-- Claim C5, on a concrete input: a source that holds 1001 transactions; the worker
returns after the requests for the pages 1, 2, 3 and 4. -/
theorem snapshot_pagination_terminates_witness :
    (["k"] : List String)[0]? = some "k" ∧
    1001 < 2 ^ 64 ∧
    (∀ n r, (sourceEnv 1001).RequestRemoteService n r = .ok (pagedSource 1001 r.page)) ∧
    (∀ p, 1 ≤ p → ((pagedSource 1001 p).transactions ≠ [] ↔ (p - 1) * 500 < 1001)) ∧
    (∀ n k v, (sourceEnv 1001).SetBlockTimestamp n k v = none) ∧
    (sourceEnv 1001).TcpPushSocketOrPanic 4001 = none ∧
    (1001 + 499) / 500 + 1 ≤ 4 ∧
    (snapshot (sourceEnv 1001) ["k"] 0 4001 4).2 = .broke ∧
    (requests (snapshot (sourceEnv 1001) ["k"] 0 4001 4).1).map (fun r => r.page)
      = List.range' 1 ((1001 + 499) / 500 + 1) ∧
    forwarded (snapshot (sourceEnv 1001) ["k"] 0 4001 4).1
      = (List.range' 1 ((1001 + 499) / 500)).map
          (fun p => batchOf (sourceEnv 1001) "k" (pagedSource 1001 p)) ∧
    notices (snapshot (sourceEnv 1001) ["k"] 0 4001 4).1 = 1 ∧
    ∃ body, (snapshot (sourceEnv 1001) ["k"] 0 4001 4).1
        = body ++ [SnapshotEffect.pushSocket 4001, SnapshotEffect.sendMessage "",
            SnapshotEffect.close] ∧
      notices body = 0 := by
  have h1 : (["k"] : List String)[0]? = some "k" := rfl
  have h2 : 1001 < 2 ^ 64 := by decide
  have h3 : ∀ n r, (sourceEnv 1001).RequestRemoteService n r = .ok (pagedSource 1001 r.page) :=
    fun _ _ => rfl
  have h4 : ∀ p, 1 ≤ p → ((pagedSource 1001 p).transactions ≠ [] ↔ (p - 1) * 500 < 1001) := by
    intro p hp
    simp only [pagedSource, ne_eq, List.replicate_eq_nil_iff]
    omega
  have h5 : ∀ n k v, (sourceEnv 1001).SetBlockTimestamp n k v = none := fun _ _ _ => rfl
  have h6 : (sourceEnv 1001).TcpPushSocketOrPanic 4001 = none := rfl
  have h7 : (1001 + 499) / 500 + 1 ≤ 4 := by decide
  exact ⟨h1, h2, h3, h4, h5, h6, h7,
    snapshot_pagination_terminates (sourceEnv 1001) ["k"] 0 4001 "k" 1001 (pagedSource 1001) 4
      h1 h2 h3 h4 h5 h6 h7⟩

/-- Claim C6, on the scenario of the claim: the transport emits one OK broadcast and
then one that is not OK; the event-output channel receives these two events and
the loop is left. -/
theorem loop_stops_after_first_bad_status_witness :
    (∀ m ∈ okThenBad, m.1 ≠ [] ∧ parseTwoFrames m.1 = .ok m.2) ∧
    (delivered (loop parseTwoFrames "me" (okThenBad.map (fun m => (m.1, none)))).1
        = uptoFirstBad (okThenBad.map (fun m => m.2)) ∧
      ((loop parseTwoFrames "me" (okThenBad.map (fun m => (m.1, none)))).2 = true ↔
        ∃ b ∈ okThenBad.map (fun m => m.2), b.IsOK = false) ∧
      receives (loop parseTwoFrames "me" (okThenBad.map (fun m => (m.1, none)))).1
        = (uptoFirstBad (okThenBad.map (fun m => m.2))).length) ∧
    (delivered (loop parseTwoFrames "me" (okThenBad.map (fun m => (m.1, none)))).1).length = 2 ∧
    (loop parseTwoFrames "me" (okThenBad.map (fun m => (m.1, none)))).2 = true := by
  have h : ∀ m ∈ okThenBad, m.1 ≠ [] ∧ parseTwoFrames m.1 = .ok m.2 := by
    intro m hm
    simp only [okThenBad, List.mem_cons, List.mem_singleton, List.not_mem_nil, or_false] at hm
    rcases hm with rfl | rfl
    · exact ⟨by decide, rfl⟩
    · exact ⟨by decide, rfl⟩
  exact ⟨h, loop_stops_after_first_bad_status parseTwoFrames "me" okThenBad h,
    by decide, by decide⟩

/-- Claim C9, the code at the failing input: the first receive returns an error
with an empty message and an OK broadcast is waiting behind it.  The Live Loop
prints the error and leaves its loop: it makes this one receive, never takes
the broadcast and pushes nothing. -/
theorem loop_receive_error_is_fatal :
    loop parseTwoFrames "me" interruptedThenOk
      = ([LoopEffect.afterFunc 10, LoopEffect.goHeartbeat,
          LoopEffect.recvMessage [] (some "interrupted system call"),
          LoopEffect.println "error in sub receive",
          LoopEffect.println "interrupted system call"], true) ∧
    receives (loop parseTwoFrames "me" interruptedThenOk).1 = 1 ∧
    delivered (loop parseTwoFrames "me" interruptedThenOk).1 = [] := by
  refine ⟨loop_exits_on_empty_error parseTwoFrames "me" _ _, ?_, ?_⟩
  · decide
  · decide

/-- Claim C7, counterexample: the probe fails and the probe loop pushes its signal;
the timer, reset just before the probe and never stopped, then expires and
pushes a second signal. -/
theorem monitor_two_signals :
    (Monitor.run Monitor.init failThenExpire).map (fun m => signals m.log)
      = some [downReply, timeoutReply] := by
  decide

/-- The watchdog does not stop the probe loop: after the timer has pushed its
signal the loop still takes the reply of its probe, sleeps, resets the timer
and probes again. -/
theorem monitor_probes_after_timeout :
    (Monitor.run Monitor.init expireThenProbe).map (fun m => m.log)
      = some [HealthEffect.timerReset 10, HealthEffect.timeout timeoutReply,
          HealthEffect.probe okReply, HealthEffect.sleep 2, HealthEffect.timerReset 10,
          HealthEffect.probe okReply] := by
  decide

/-- Claim C7, as amended, on a concrete input: after the probe loop has pushed its
signal, the one thing that follows is the expiry of the timer. -/
theorem monitor_probe_loop_terminal_witness :
    Monitor.run Monitor.init failThenExpire
      = some { pc := .exited, armed := false,
               log := [HealthEffect.timerReset 10, HealthEffect.probe downReply,
                 HealthEffect.send downReply, HealthEffect.timeout timeoutReply] } ∧
    (sent [HealthEffect.timerReset 10, HealthEffect.probe downReply,
        HealthEffect.send downReply, HealthEffect.timeout timeoutReply]).length ≤ 1 ∧
    (Pc.exited = Pc.exited ↔
      (sent [HealthEffect.timerReset 10, HealthEffect.probe downReply,
        HealthEffect.send downReply, HealthEffect.timeout timeoutReply]).length = 1) ∧
    (∀ e ∈ afterSend [HealthEffect.timerReset 10, HealthEffect.probe downReply,
        HealthEffect.send downReply, HealthEffect.timeout timeoutReply],
      ∃ r, e = HealthEffect.timeout r) ∧
    (afterSend [HealthEffect.timerReset 10, HealthEffect.probe downReply,
        HealthEffect.send downReply, HealthEffect.timeout timeoutReply]).length ≤ 1 := by
  have h : Monitor.run Monitor.init failThenExpire
      = some { pc := .exited, armed := false,
               log := [HealthEffect.timerReset 10, HealthEffect.probe downReply,
                 HealthEffect.send downReply, HealthEffect.timeout timeoutReply] } := by
    decide
  exact ⟨h, monitor_probe_loop_terminal failThenExpire _ h⟩

/-- Claim C10, counterexample: the first page's reply carries the batch timestamp 0,
the second 7; the second request carries `to` = 0 and the third carries
`to` = 7, which is not the batch timestamp of the first page's reply. -/
theorem snapshot_window_moves :
    replyTimestamps (pagesEnv 5 zeroStampPages) 0
        (requests (snapshot (pagesEnv 5 zeroStampPages) ["k"] 0 4001 3).1) = [0, 7, 9] ∧
    (requests (snapshot (pagesEnv 5 zeroStampPages) ["k"] 0 4001 3).1).map
        (fun r => r.block_timestamp_to) = [0, 0, 7] := by
  decide

/-- Claim C10, as amended, on a concrete input: the first page's reply carries the
batch timestamp 20; the third request asks for page 3 of the window from the
checkpoint 1 up to 20. -/
theorem snapshot_request_window_witness :
    (requests (snapshot (pagesEnv 1 increasingPages) ["k"] 0 4001 3).1)[2]?
      = some (pageRequest "k" 1 20 3 500) ∧
    ∃ key, (["k"] : List String)[0]? = some key ∧
      (pageRequest "k" 1 20 3 500).Command = "snapshot_get" ∧
      (pageRequest "k" 1 20 3 500).smartcontract_key = key ∧
      (pageRequest "k" 1 20 3 500).block_timestamp_from
        = (pagesEnv 1 increasingPages).GetBlockTimestamp key ∧
      (pageRequest "k" 1 20 3 500).limit = 500 ∧
      (pageRequest "k" 1 20 3 500).page = (2 + 1) % 2 ^ 64 ∧
      (pageRequest "k" 1 20 3 500).block_timestamp_to
        = firstNonZero (replyTimestamps (pagesEnv 1 increasingPages) 0
          ((requests (snapshot (pagesEnv 1 increasingPages) ["k"] 0 4001 3).1).take 2)) ∧
      (2 = 0 → (pageRequest "k" 1 20 3 500).block_timestamp_to = 0 ∧
        (pageRequest "k" 1 20 3 500).page = 1) ∧
      (∀ t ts, replyTimestamps (pagesEnv 1 increasingPages) 0
          ((requests (snapshot (pagesEnv 1 increasingPages) ["k"] 0 4001 3).1).take 2) = t :: ts →
        t ≠ 0 → (pageRequest "k" 1 20 3 500).block_timestamp_to = t) :=
  ⟨by decide,
    snapshot_request_window (pagesEnv 1 increasingPages) ["k"] 0 4001 3 2
      (pageRequest "k" 1 20 3 500) (by decide)⟩

end Subscriber
